import Mathlib

set_option maxRecDepth 10000

/-!
# Verification of the AI orchestration core of mcp-adr-analysis-server

A shallow embedding of the AI configuration loader (`ai-config`), the
prompt executor (`ai-executor`), and the tool-chain orchestrator
(`tool-chain-orchestrator`) of the repository, together with theorems
settling the specification claims about them.

Conventions of the embedding:
* JavaScript strings are Lean `String`s; machine numbers coming from
  `parseInt`/`parseFloat` are `Int`/`ℚ` (`NaN` is `Option.none`);
  absolute times (`Date.now()`) are `Int` milliseconds.
* JavaScript truthiness is made explicit: `x || d` on strings/numbers is
  `jsOrS`/`jsOrI`/`jsOrQ` below, which replace both "absent" and the
  falsy values `""`/`0` by the default.
* The process environment is a function `String → Option String`.
* `throw new Error(...)` is `Except.error`; functions that cannot throw
  stay pure.
-/

deriving instance DecidableEq for Except

/-! ## JavaScript primitives -/

/-- JS `v || d` for an optional string: `undefined` and `""` are falsy. -/
def jsOrS (v : Option String) (d : String) : String :=
  match v with
  | none => d
  | some s => if s = "" then d else s

/-- JS `v || d` for a parsed number (`none` = `NaN`): `NaN` and `0` are falsy. -/
def jsOrI (v : Option Int) (d : Int) : Int :=
  match v with
  | none => d
  | some n => if n = 0 then d else n

/-- JS `v || d` for a parsed float (`none` = `NaN`): `NaN` and `0` are falsy. -/
def jsOrQ (v : Option ℚ) (d : ℚ) : ℚ :=
  match v with
  | none => d
  | some q => if q = 0 then d else q

/-- The ASCII whitespace characters of JS `\s` / `String.prototype.trim`. -/
def jsWhite (c : Char) : Bool :=
  c = ' ' || c = '\t' || c = '\n' || c = '\r' || c = Char.ofNat 11 || c = Char.ofNat 12

/-- JS `trim` on a character list: drop whitespace from both ends. -/
def jsTrimL (l : List Char) : List Char :=
  ((l.dropWhile jsWhite).reverse.dropWhile jsWhite).reverse

/-- JS `String.prototype.trim`. -/
def jsTrim (s : String) : String :=
  String.mk (jsTrimL s.data)

/-- Does `hay` contain `needle` as a contiguous sublist? (JS `includes`). -/
def subLC (needle : List Char) : List Char → Bool
  | [] => needle.isEmpty
  | c :: t => needle.isPrefixOf (c :: t) || subLC needle t

/-- JS `hay.includes(needle)`. -/
def jsIncludes (hay needle : String) : Bool :=
  subLC needle.data hay.data

/-- JS `toLowerCase` (ASCII letters). -/
def jsLower (s : String) : String :=
  String.mk (s.data.map Char.toLower)

/-- JS `Array.prototype.join(sep)`. -/
def jsJoin (sep : String) : List String → String
  | [] => ""
  | [a] => a
  | a :: b :: t => a ++ sep ++ jsJoin sep (b :: t)

/-- First-occurrence deduplication, the order of JS `[...new Set(l)]`. -/
def jsDedup : List String → List String :=
  go []
where
  go (seen : List String) : List String → List String
    | [] => []
    | a :: t => if a ∈ seen then go seen t else a :: go (a :: seen) t

/-- JS `parseInt(s)` (base 10): optional sign then leading decimal digits;
`none` when no digit is found (`NaN`). -/
def parseIntJs (s : String) : Option Int :=
  let l := s.data.dropWhile jsWhite
  let (neg, l) : Bool × List Char :=
    match l with
    | '-' :: t => (true, t)
    | '+' :: t => (false, t)
    | t => (false, t)
  let ds := l.takeWhile Char.isDigit
  if ds.isEmpty then none
  else
    let n : Nat := ds.foldl (fun acc c => acc * 10 + (c.toNat - 48)) 0
    some (if neg then -(n : Int) else (n : Int))

/-- JS `parseFloat(s)`: optional sign, integer digits, optional fraction;
`none` when no digit is found (`NaN`). Exponents are not modelled (no
configuration value in this repository uses one). -/
def parseFloatJs (s : String) : Option ℚ :=
  let l := s.data.dropWhile jsWhite
  let (neg, l) : Bool × List Char :=
    match l with
    | '-' :: t => (true, t)
    | '+' :: t => (false, t)
    | t => (false, t)
  let ds := l.takeWhile Char.isDigit
  let rest := l.drop ds.length
  let fs : List Char :=
    match rest with
    | '.' :: t => t.takeWhile Char.isDigit
    | _ => []
  if ds.isEmpty && fs.isEmpty then none
  else
    let intPart : Nat := ds.foldl (fun acc c => acc * 10 + (c.toNat - 48)) 0
    let fracNum : Nat := fs.foldl (fun acc c => acc * 10 + (c.toNat - 48)) 0
    let q : ℚ := (intPart : ℚ) + (fracNum : ℚ) / ((10 : ℚ) ^ fs.length)
    some (if neg then -q else q)

/-! ## Provider configuration (`src/config/ai-config.ts`)

`AIConfig` as the interface declares it.  `provider` and `executionMode`
stay `String`s because the source casts environment text into those
union types without checking it. -/

structure AIConfig where
  provider : String
  apiKey : String
  baseURL : String
  defaultModel : String
  executionMode : String
  siteUrl : Option String := none
  siteName : Option String := none
  timeout : Int
  maxRetries : Int
  temperature : ℚ
  maxTokens : Int
  cacheEnabled : Bool
  cacheTTL : Int
  azureEndpoint : Option String := none
  azureDeployment : Option String := none
  azureApiVersion : Option String := none
deriving DecidableEq, Repr

/-- `DEFAULT_AI_CONFIG` (the fields the claims use). -/
def DEFAULT_AI_CONFIG : AIConfig :=
  { provider := "openrouter"
    apiKey := ""
    baseURL := "https://openrouter.ai/api/v1"
    defaultModel := "anthropic/claude-3-sonnet"
    executionMode := "full"
    siteUrl := some "https://github.com/tosin2013/mcp-adr-analysis-server"
    siteName := some "MCP ADR Analysis Server"
    timeout := 60000
    maxRetries := 3
    temperature := 0.1
    maxTokens := 4000
    cacheEnabled := true
    cacheTTL := 3600
    azureApiVersion := some "2024-08-01-preview" }

/-- A process environment: `none` is an unset variable. -/
abbrev Env : Type := String → Option String

/-- `endpoint.replace(/\/$/, '')`: drop one trailing slash. -/
def dropTrailingSlash (s : String) : String :=
  match s.data.getLast? with
  | some '/' => String.mk s.data.dropLast
  | _ => s

/-- The required environment variables the active provider is missing, in
the order `validateProviderConfig` collects them. -/
def missingProviderVars (config : AIConfig) : List String :=
  if config.provider = "azure" then
    (if config.azureEndpoint.getD "" = "" then ["AZURE_OPENAI_ENDPOINT"] else []) ++
    (if config.apiKey = "" then ["AZURE_OPENAI_API_KEY"] else []) ++
    (if config.azureDeployment.getD "" = "" then ["AZURE_OPENAI_DEPLOYMENT"] else [])
  else if config.provider = "openai" then
    if config.apiKey = "" then ["OPENAI_API_KEY"] else []
  else
    if config.apiKey = "" then ["OPENROUTER_API_KEY"] else []

/-- The error message of the azure branch of `validateProviderConfig`. -/
def azureMissingMessage (missing : List String) : String :=
  "Azure AI Foundry requires the following environment variables: " ++
  jsJoin ", " missing ++
  ". Set AI_PROVIDER=openrouter or AI_PROVIDER=openai to use a different provider, " ++
  "or set EXECUTION_MODE=prompt-only to disable AI execution."

/-- The error message of the openai branch of `validateProviderConfig`. -/
def openaiMissingMessage : String :=
  "OpenAI requires OPENAI_API_KEY environment variable. " ++
  "Set AI_PROVIDER=openrouter or AI_PROVIDER=azure to use a different provider, " ++
  "or set EXECUTION_MODE=prompt-only to disable AI execution."

/-- The error message of the openrouter/default branch of `validateProviderConfig`. -/
def openrouterMissingMessage : String :=
  "OpenRouter requires OPENROUTER_API_KEY environment variable. " ++
  "Get your API key at https://openrouter.ai/keys. " ++
  "Set AI_PROVIDER=azure or AI_PROVIDER=openai to use a different provider, " ++
  "or set EXECUTION_MODE=prompt-only to disable AI execution."

/-- `validateProviderConfig`: throws a descriptive error when, in `full`
execution mode, required variables of the active provider are empty. -/
def validateProviderConfig (config : AIConfig) : Except String Unit :=
  if config.executionMode ≠ "full" then
    Except.ok ()
  else if config.provider = "azure" then
    let missingAzureVars := missingProviderVars config
    if missingAzureVars.length > 0 then
      Except.error (azureMissingMessage missingAzureVars)
    else Except.ok ()
  else if config.provider = "openai" then
    if config.apiKey = "" then Except.error openaiMissingMessage else Except.ok ()
  else
    if config.apiKey = "" then Except.error openrouterMissingMessage else Except.ok ()

/-- The `AIConfig` record `loadAIConfig` builds from the environment,
before provider validation. -/
def buildAIConfig (env : Env) : AIConfig :=
  let provider := jsOrS (env "AI_PROVIDER") "openrouter"
  let azureEndpoint :=
    if provider = "azure" then jsOrS (env "AZURE_OPENAI_ENDPOINT") "" else ""
  let azureDeployment :=
    if provider = "azure" then jsOrS (env "AZURE_OPENAI_DEPLOYMENT") "" else ""
  let azureApiVersion :=
    if provider = "azure" then
      jsOrS (env "AZURE_OPENAI_API_VERSION") (DEFAULT_AI_CONFIG.azureApiVersion.getD "")
    else ""
  let apiKey :=
    if provider = "azure" then jsOrS (env "AZURE_OPENAI_API_KEY") ""
    else if provider = "openai" then jsOrS (env "OPENAI_API_KEY") ""
    else jsOrS (env "OPENROUTER_API_KEY") ""
  let baseURL :=
    if provider = "azure" then
      if azureEndpoint ≠ "" then
        dropTrailingSlash azureEndpoint ++ "/openai/deployments/" ++ azureDeployment
      else ""
    else if provider = "openai" then "https://api.openai.com/v1"
    else "https://openrouter.ai/api/v1"
  let defaultModel :=
    if provider = "azure" then jsOrS (some azureDeployment) (jsOrS (env "AI_MODEL") "gpt-4")
    else if provider = "openai" then jsOrS (env "AI_MODEL") "gpt-4o"
    else jsOrS (env "AI_MODEL") DEFAULT_AI_CONFIG.defaultModel
  { provider := provider
    apiKey := apiKey
    baseURL := baseURL
    defaultModel := defaultModel
    executionMode := jsOrS (env "EXECUTION_MODE") DEFAULT_AI_CONFIG.executionMode
    siteUrl := some (jsOrS (env "SITE_URL") (DEFAULT_AI_CONFIG.siteUrl.getD ""))
    siteName := some (jsOrS (env "SITE_NAME") (DEFAULT_AI_CONFIG.siteName.getD ""))
    timeout := jsOrI (parseIntJs (jsOrS (env "AI_TIMEOUT") "")) DEFAULT_AI_CONFIG.timeout
    maxRetries := jsOrI (parseIntJs (jsOrS (env "AI_MAX_RETRIES") "")) DEFAULT_AI_CONFIG.maxRetries
    temperature := jsOrQ (parseFloatJs (jsOrS (env "AI_TEMPERATURE") "")) DEFAULT_AI_CONFIG.temperature
    maxTokens := jsOrI (parseIntJs (jsOrS (env "AI_MAX_TOKENS") "")) DEFAULT_AI_CONFIG.maxTokens
    cacheEnabled := env "AI_CACHE_ENABLED" ≠ some "false"
    cacheTTL := jsOrI (parseIntJs (jsOrS (env "AI_CACHE_TTL") "")) DEFAULT_AI_CONFIG.cacheTTL
    azureEndpoint := if azureEndpoint ≠ "" then some azureEndpoint else none
    azureDeployment := if azureDeployment ≠ "" then some azureDeployment else none
    azureApiVersion := if azureApiVersion ≠ "" then some azureApiVersion else none }

/-- `loadAIConfig`: build the record from the environment, then run
`validateProviderConfig` on it (propagating its error). -/
def loadAIConfig (env : Env) : Except String AIConfig :=
  let config := buildAIConfig env
  match validateProviderConfig config with
  | Except.error e => Except.error e
  | Except.ok _ => Except.ok config

/-- `isAIExecutionEnabled`: execution mode is `full` and the key is non-empty. -/
def isAIExecutionEnabled (config : AIConfig) : Bool :=
  config.executionMode = "full" && config.apiKey ≠ ""

/-! ## Tool chain orchestrator (`src/tools/tool-chain-orchestrator.ts`) -/

/-- A step of a tool chain plan (`ToolChainStepSchema`; the opaque
`parameters` record is not carried: no claim depends on it). -/
structure ToolChainStep where
  toolName : String
  description : String
  dependsOn : Option (List String) := none
  stepId : String
  conditional : Bool := false
  retryable : Bool := true
deriving DecidableEq, Repr

/-- A tool chain plan (`ToolChainPlanSchema`). -/
structure ToolChainPlan where
  planId : String
  userIntent : String
  confidence : ℚ
  estimatedDuration : String
  steps : List ToolChainStep
  fallbackSteps : Option (List ToolChainStep) := none
  prerequisites : Option (List String) := none
  expectedOutputs : List String
deriving DecidableEq, Repr

/-- Execution constraints (after zod parsing `maxSteps` always carries a
number, 10 by default; callers may still pass 0). -/
structure PlanConstraints where
  maxSteps : Int := 10
  timeLimit : Option String := none
  excludeTools : Option (List String) := none
  prioritizeSpeed : Bool := false
deriving DecidableEq, Repr

/-- The closed registry `AVAILABLE_TOOLS` (25 tools). -/
def AVAILABLE_TOOLS : List String :=
  [ "analyze_project_ecosystem", "generate_adrs_from_prd", "suggest_adrs",
    "analyze_content_security", "generate_rules", "generate_adr_todo",
    "compare_adr_progress", "manage_todo", "generate_deployment_guidance",
    "smart_score", "troubleshoot_guided_workflow", "smart_git_push",
    "generate_research_questions", "validate_rules", "analyze_code_patterns",
    "suggest_improvements", "generate_test_scenarios", "create_documentation",
    "security_audit", "performance_analysis", "dependency_analysis",
    "refactoring_suggestions", "api_documentation", "deployment_checklist",
    "release_notes" ]

/-- Rule 1 condition: `constraints?.maxSteps && plan.steps.length >
constraints.maxSteps` — JS truthiness: a present `maxSteps` of `0`
skips the step-count rule. -/
def tooManyStepsB (plan : ToolChainPlan) (constraints : Option PlanConstraints) : Bool :=
  match constraints with
  | some c => c.maxSteps ≠ 0 && (plan.steps.length : Int) > c.maxSteps
  | none => false

/-- Rule 2 condition: `constraints?.excludeTools` present (any array is
truthy) and the filter of steps using an excluded tool is non-empty. -/
def usedExcludedB (plan : ToolChainPlan) (constraints : Option PlanConstraints) : Bool :=
  match constraints with
  | some c =>
    match c.excludeTools with
    | some ex =>
      (plan.steps.filter (fun step : ToolChainStep => ex.contains step.toolName)).length > 0
    | none => false
  | none => false

/-- Rule 3 condition: some step's tool is outside `AVAILABLE_TOOLS`. -/
def invalidToolsB (plan : ToolChainPlan) : Bool :=
  (plan.steps.filter (fun step : ToolChainStep =>
    !AVAILABLE_TOOLS.contains step.toolName)).length > 0

/-- Rule 4 condition: some step's `dependsOn` references a step id not
among the plan's step ids. -/
def danglingDepB (plan : ToolChainPlan) : Bool :=
  plan.steps.any (fun step : ToolChainStep =>
    (step.dependsOn.getD []).any (fun depId =>
      !(plan.steps.map (fun s : ToolChainStep => s.stepId)).contains depId))

/-- `validatePlanSafety`: the five safety rules in source order; the
error value is the `McpAdrError` code (messages carry JS number
formatting and are elided). -/
def validatePlanSafety (plan : ToolChainPlan) (constraints : Option PlanConstraints) :
    Except String Unit :=
  if tooManyStepsB plan constraints then Except.error "PLAN_TOO_COMPLEX"
  else if usedExcludedB plan constraints then Except.error "EXCLUDED_TOOLS_USED"
  else if invalidToolsB plan then Except.error "UNKNOWN_TOOLS"
  else if danglingDepB plan then Except.error "INVALID_DEPENDENCY"
  else if plan.confidence < 0.6 then Except.error "LOW_CONFIDENCE_PLAN"
  else Except.ok ()

/-- Session context for hallucination prevention. -/
structure SessionContext where
  conversationLength : Option Int := none
  previousActions : Option (List String) := none
  confusionIndicators : Option (List String) := none
  lastSuccessfulAction : Option String := none
  stuckOnTask : Option String := none
deriving DecidableEq, Repr

/-- The fixed confusion keyword vocabulary of `performRealityCheck`. -/
def confusionKeywords : List String :=
  ["confused", "not working", "stuck", "help", "what should",
   "don\x27t know", "error", "failed"]

/-- The additive risk score of `performRealityCheck`: +2 for a (truthy)
conversation length over 20, +1 per distinct tool repeated more than 3
times, +1 per confusion keyword found in the lowercased request, +3 for
a (truthy) `stuckOnTask`. -/
def realityRiskScore (sessionCtx : Option SessionContext) (userRequest : String) : Nat :=
  let request := jsLower userRequest
  let longConv : Nat :=
    match sessionCtx with
    | some ctx =>
      match ctx.conversationLength with
      | some n => if n ≠ 0 && n > 20 then 2 else 0
      | none => 0
    | none => 0
  let repeated : Nat :=
    match sessionCtx with
    | some ctx =>
      match ctx.previousActions with
      | some actions =>
        ((jsDedup actions).filter (fun tool => actions.count tool > 3)).length
      | none => 0
    | none => 0
  let keywords : Nat :=
    (confusionKeywords.filter (fun keyword => jsIncludes request keyword)).length
  let stuck : Nat :=
    match sessionCtx with
    | some ctx =>
      match ctx.stuckOnTask with
      | some s => if s ≠ "" then 3 else 0
      | none => 0
    | none => 0
  longConv + repeated + keywords + stuck

/-- The three risk buckets. -/
inductive HallucinationRisk | low | medium | high
deriving DecidableEq, Repr

/-- The risk bucket `performRealityCheck` reports (the indicator /
recommendation string lists are elided: no claim depends on them). -/
def performRealityCheck (sessionCtx : Option SessionContext) (userRequest : String) :
    HallucinationRisk :=
  let riskScore := realityRiskScore sessionCtx userRequest
  if riskScore ≥ 5 then HallucinationRisk.high
  else if riskScore ≥ 2 then HallucinationRisk.medium
  else HallucinationRisk.low

/-- The keyword → suggested tools table of `fallbackIntentAnalysis`,
in source (insertion) order. -/
def keywordMap : List (String × List String) :=
  [ ("analyze", ["analyze_project_ecosystem", "analyze_content_security"]),
    ("generate", ["generate_adrs_from_prd", "generate_adr_todo", "generate_deployment_guidance"]),
    ("todo", ["manage_todo", "generate_adr_todo"]),
    ("adr", ["suggest_adrs", "generate_adrs_from_prd", "compare_adr_progress"]),
    ("deploy", ["generate_deployment_guidance", "smart_git_push"]),
    ("score", ["smart_score"]),
    ("troubleshoot", ["troubleshoot_guided_workflow"]),
    ("security", ["analyze_content_security", "security_audit"]) ]

/-- The record `analyzeUserIntent` / `fallbackIntentAnalysis` return. -/
structure IntentAnalysis where
  intent : String
  category : String
  complexity : String
  suggestedTools : List String
  confidence : ℚ
deriving DecidableEq, Repr

/-- The tools the keyword loop of `fallbackIntentAnalysis` accumulates:
the mapped tools of every keyword the lowercased request contains, in
table order. -/
def matchedTools (userRequest : String) : List String :=
  (keywordMap.filter (fun kv => jsIncludes (jsLower userRequest) kv.1)).flatMap
    (fun kv => kv.2)

/-- `fallbackIntentAnalysis`: deterministic keyword matching over the
lowercased request. -/
def fallbackIntentAnalysis (userRequest : String) : IntentAnalysis :=
  let request := jsLower userRequest
  let suggestedTools := matchedTools userRequest
  let genOrCreate := jsIncludes request "generate" || jsIncludes request "create"
  let trouble := jsIncludes request "troubleshoot" || jsIncludes request "debug"
  let deploy := jsIncludes request "deploy" || jsIncludes request "release"
  let category :=
    if genOrCreate then "generation"
    else if trouble then "troubleshooting"
    else if deploy then "deployment"
    else "analysis"
  let complexity :=
    if genOrCreate then "moderate"
    else if trouble then "complex"
    else if deploy then "complex"
    else "simple"
  { intent :=
      "User wants to " ++
      (if jsIncludes request "analyze" then "analyze"
       else if jsIncludes request "generate" then "generate"
       else "manage") ++ " project elements"
    category := category
    complexity := complexity
    suggestedTools := (jsDedup suggestedTools).take 5
    confidence := if suggestedTools.length > 0 then 0.7 else 0.3 }

/-- `analyzeUserIntent`, with the AI round-trip abstracted into an
oracle: `aiEnabled` is `isAIExecutionEnabled`, and `aiOutcome` the
combined outcome of `executeStructuredPrompt` + `JSON.parse` on its
content (`Except.error` covers a throw or an empty content). Disabled
or failing AI falls back to `fallbackIntentAnalysis`. -/
def analyzeUserIntent (aiEnabled : Bool) (aiOutcome : Except Unit IntentAnalysis)
    (userRequest : String) : IntentAnalysis :=
  if !aiEnabled then fallbackIntentAnalysis userRequest
  else
    match aiOutcome with
    | Except.ok a => a
    | Except.error _ => fallbackIntentAnalysis userRequest

/-! ## Prompt executor (`src/utils/ai-executor.ts`) -/

/-- Token usage of a completion. -/
structure Usage where
  promptTokens : Nat
  completionTokens : Nat
  totalTokens : Nat
deriving DecidableEq, Repr

/-- Execution metadata (`new Date().toISOString()` is carried as the
millisecond clock value instead of its rendering). -/
structure ExecMetadata where
  executionTime : Int
  cached : Bool
  retryCount : Nat
  timestamp : Int
deriving DecidableEq, Repr

/-- `AIExecutionResult`. -/
structure AIExecutionResult where
  content : String
  model : String
  usage : Option Usage := none
  metadata : ExecMetadata
deriving DecidableEq, Repr

/-- `AIExecutionError` (the interpolated message is elided; the wrapped
original error is kept as the provider's error string). -/
structure AIExecutionError where
  code : String
  retryable : Bool
  originalError : Option String := none
deriving DecidableEq, Repr

/-- The options record of `executePrompt`. -/
structure ExecOptions where
  model : Option String := none
  temperature : Option ℚ := none
  maxTokens : Option Int := none
  systemPrompt : Option String := none
deriving DecidableEq, Repr

/-- What one chat-completion call yields on success: `choices[0]?.message?.content`
(possibly absent), the reported model, and optional usage. -/
structure ProviderResponse where
  content : Option String := none
  model : String
  usage : Option Usage := none
deriving DecidableEq, Repr

/-- A provider behaviour: the outcome of the k-th call attempt (k = 0,1,…),
an error string or a response. -/
abbrev Provider : Type := Nat → Except String ProviderResponse

/-- A cache entry. -/
structure CacheEntry where
  result : AIExecutionResult
  expiry : Int
deriving DecidableEq, Repr

/-- The executor's cache: a JS `Map` as an insertion-ordered association list. -/
abbrev Cache : Type := List (String × CacheEntry)

/-- `Map.get`. -/
def cacheGet (m : Cache) (k : String) : Option CacheEntry :=
  match m with
  | [] => none
  | kv :: t => if kv.1 = k then some kv.2 else cacheGet t k

/-- `Map.set`: update in place keeping insertion order, else append. -/
def cacheSet (m : Cache) (k : String) (v : CacheEntry) : Cache :=
  match m with
  | [] => [(k, v)]
  | kv :: t => if kv.1 = k then (k, v) :: t else kv :: cacheSet t k v

/-- `Map.delete`. -/
def cacheDelete (m : Cache) (k : String) : Cache :=
  match m with
  | [] => []
  | kv :: t => if kv.1 = k then t else kv :: cacheDelete t k

/-! ### Cache key (`generateCacheKey`) -/

/-- JSON string escaping of `JSON.stringify` for one character. -/
def jsonEscapeChar (c : Char) : String :=
  if c = '"' then "\\\""
  else if c = '\\' then "\\\\"
  else if c = '\x08' then "\\b"
  else if c = '\t' then "\\t"
  else if c = '\n' then "\\n"
  else if c = '\x0c' then "\\f"
  else if c = '\r' then "\\r"
  else if c.toNat < 32 then
    let hexDigit (n : Nat) : Char := if n < 10 then Char.ofNat (48 + n) else Char.ofNat (87 + n)
    "\\u00" ++ String.mk [hexDigit (c.toNat / 16), hexDigit (c.toNat % 16)]
  else String.singleton c

/-- `JSON.stringify` of a string. -/
def jsonQuote (s : String) : String :=
  "\"" ++ String.join (s.data.map jsonEscapeChar) ++ "\""

/-- `JSON.stringify` of a JS number that is an integer (the only numeric
options the claims exercise; fractional rendering is not modelled). -/
def jsonNumQ (q : ℚ) : String :=
  if q.den = 1 then toString q.num else toString q.num ++ "/" ++ toString q.den

/-- `JSON.stringify(options)`: the present fields, in the interface's
declaration order, `undefined` fields omitted. -/
def jsonStringifyOptions (o : ExecOptions) : String :=
  let fields : List String :=
    (match o.model with
     | some m => ["\"model\":" ++ jsonQuote m]
     | none => []) ++
    (match o.temperature with
     | some t => ["\"temperature\":" ++ jsonNumQ t]
     | none => []) ++
    (match o.maxTokens with
     | some n => ["\"maxTokens\":" ++ toString n]
     | none => []) ++
    (match o.systemPrompt with
     | some p => ["\"systemPrompt\":" ++ jsonQuote p]
     | none => [])
  "\x7b" ++ jsJoin "," fields ++ "\x7d"

/-- `JSON.stringify({ prompt, model, options })`. -/
def jsonStringifyKey (prompt model : String) (options : ExecOptions) : String :=
  "\x7b\"prompt\":" ++ jsonQuote prompt ++
  ",\"model\":" ++ jsonQuote model ++
  ",\"options\":" ++ jsonStringifyOptions options ++ "\x7d"

/-- UTF-8 bytes of a string (`Buffer.from(key)`). -/
def utf8Bytes (s : String) : List Nat :=
  s.data.flatMap (fun c =>
    let n := c.toNat
    if n < 0x80 then [n]
    else if n < 0x800 then [0xC0 + n / 64, 0x80 + n % 64]
    else if n < 0x10000 then [0xE0 + n / 4096, 0x80 + (n / 64) % 64, 0x80 + n % 64]
    else [0xF0 + n / 262144, 0x80 + (n / 4096) % 64, 0x80 + (n / 64) % 64, 0x80 + n % 64])

/-- The base64 alphabet. -/
def b64Char (n : Nat) : Char :=
  "ABCDEFGHIJKLMNOPQRSTUVWXYZabcdefghijklmnopqrstuvwxyz0123456789+/".data.getD n 'A'

/-- Standard base64 of a byte list (`Buffer.toString('base64')`). -/
def base64Encode : List Nat → String
  | [] => ""
  | [a] =>
    String.mk [b64Char (a / 4), b64Char (a % 4 * 16)] ++ "=="
  | [a, b] =>
    String.mk [b64Char (a / 4), b64Char (a % 4 * 16 + b / 16), b64Char (b % 16 * 4)] ++ "="
  | a :: b :: c :: t =>
    String.mk [b64Char (a / 4), b64Char (a % 4 * 16 + b / 16),
               b64Char (b % 16 * 4 + c / 64), b64Char (c % 64)] ++ base64Encode t

/-- `generateCacheKey`: base64 of the JSON serialization, truncated to its
first 32 characters. -/
def generateCacheKey (prompt model : String) (options : ExecOptions) : String :=
  (base64Encode (utf8Bytes (jsonStringifyKey prompt model options))).take 32

/-! ### Cache operations -/

/-- `getCachedResult`: a hit returns a copy of the stored result tagged
`cached = true`; an expired entry is deleted and misses. Returns the
(possibly changed) cache alongside. -/
def getCachedResult (cache : Cache) (now : Int) (cacheKey : String) :
    Option AIExecutionResult × Cache :=
  match cacheGet cache cacheKey with
  | none => (none, cache)
  | some cached =>
    if now > cached.expiry then (none, cacheDelete cache cacheKey)
    else
      (some { cached.result with
              metadata := { cached.result.metadata with cached := true } }, cache)

/-- `cleanupCache`: delete every entry whose expiry has passed. -/
def cleanupCache (now : Int) : Cache → Cache
  | [] => []
  | kv :: t => if now > kv.2.expiry then cleanupCache now t else kv :: cleanupCache now t

/-- `setCachedResult`: store under the key with expiry `now + cacheTTL·1000`,
then clean up expired entries once the store holds more than 100. -/
def setCachedResult (config : AIConfig) (cache : Cache) (now : Int)
    (cacheKey : String) (result : AIExecutionResult) : Cache :=
  let expiry := now + config.cacheTTL * 1000
  let cache1 := cacheSet cache cacheKey { result := result, expiry := expiry }
  if cache1.length > 100 then cleanupCache now cache1 else cache1

/-! ### The retry loop of `executePrompt` -/

/-- The result a successful attempt at retry count `r` assembles. -/
def mkExecResult (now : Int) (r : Nat) (resp : ProviderResponse) : AIExecutionResult :=
  { content := (resp.content).getD ""
    model := resp.model
    usage := resp.usage
    metadata :=
      { executionTime := now - now
        cached := false
        retryCount := r
        timestamp := now } }

/-- The `while (retryCount <= maxRetries)` loop: one provider call per
iteration; on failure the incremented count is checked against
`maxRetries` and an exponential-backoff delay `min(1000·2^(k−1), 10000)`
is awaited before the k-th retry. Returns the outcome, the number of
calls made, and the list of delays awaited. `fuel` is the number of
remaining loop entries, `(maxRetries + 1 − r)` clamped at zero; fuel 0
falls through to the `AI_UNEXPECTED_ERROR` throw after the loop. -/
def attemptLoop (provider : Provider) (maxRetries : Int) (now : Int) :
    Nat → Nat → Except AIExecutionError AIExecutionResult × Nat × List Nat
  | _, 0 => (Except.error { code := "AI_UNEXPECTED_ERROR", retryable := false }, 0, [])
  | r, fuel + 1 =>
    match provider r with
    | Except.ok resp => (Except.ok (mkExecResult now r resp), 1, [])
    | Except.error e =>
      if ((r : Int) + 1) > maxRetries then
        (Except.error { code := "AI_EXECUTION_FAILED", retryable := false,
                        originalError := some e }, 1, [])
      else
        let delay := min (1000 * 2 ^ r) 10000
        let rest := attemptLoop provider maxRetries now (r + 1) fuel
        (rest.1, rest.2.1 + 1, delay :: rest.2.2)

/-- The observable outcome of one `executePrompt` call: its result or
error, the cache afterwards, the number of provider calls issued, and
the backoff delays awaited. -/
structure ExecOutcome where
  result : Except AIExecutionError AIExecutionResult
  cache : Cache
  calls : Nat
  delays : List Nat
deriving Repr

/-- `executePrompt` over a fixed configuration (the environment-drift
reload is identity under a fixed environment) at one clock instant
`now`: availability gate, cache lookup when enabled, then the retry
loop, caching a successful result. -/
def executePrompt (config : AIConfig) (cache : Cache) (now : Int)
    (provider : Provider) (prompt : String) (options : ExecOptions) : ExecOutcome :=
  if !isAIExecutionEnabled config then
    { result := Except.error { code := "AI_UNAVAILABLE", retryable := false },
      cache := cache, calls := 0, delays := [] }
  else
    let model := jsOrS options.model config.defaultModel
    let cacheKey := generateCacheKey prompt model options
    let lookup : Option AIExecutionResult × Cache :=
      if config.cacheEnabled then getCachedResult cache now cacheKey
      else (none, cache)
    match lookup with
    | (some cached, cache1) =>
      { result := Except.ok cached, cache := cache1, calls := 0, delays := [] }
    | (none, cache1) =>
      let fuel := (config.maxRetries + 1).toNat
      let (res, calls, delays) := attemptLoop provider config.maxRetries now 0 fuel
      match res with
      | Except.ok result =>
        let cache2 :=
          if config.cacheEnabled then setCachedResult config cache1 now cacheKey result
          else cache1
        { result := Except.ok result, cache := cache2, calls := calls, delays := delays }
      | Except.error e =>
        { result := Except.error e, cache := cache1, calls := calls, delays := delays }

/-! ### JSON extraction (`extractJsonFromResponse`)

The three regular expressions are modelled by hand on character lists,
with JS backtracking semantics made explicit:
* `^```(?:json)?\s*\n?([\s\S]*?)\n?```$` — after the fence prefix and an
  optional `json` tag, the greedy `\s*` eats the maximal whitespace run
  (the maximality of this run makes the following `\n?` match nothing),
  and the lazy capture makes the tail as long as possible, so the tail
  is the 4-character suffix `"\n```"` when present, else the 3-character
  suffix `` "```" ``; whether `json` is consumed never changes whether
  the whole pattern matches, so no backtracking over `(?:json)?` is
  observable.
* `` ^`([\s\S]*?)`$ `` — first and last characters are backticks and the
  capture is everything between them ($-anchoring forces the lazy
  capture to the last backtick).
* `(\{[\s\S]*\}|\[[\s\S]*\])` — unanchored, leftmost-first: at the first
  position holding `{` with a later `}` (or, failing the first
  alternative at that position, `[` with a later `]`) the greedy body
  runs to the **last** such closer in the whole input. -/

/-- The opening and closing brace characters. -/
def braceOpen : Char := Char.ofNat 123

def braceClose : Char := Char.ofNat 125

/-- `l = pre ++ rest`? Then `some rest`. -/
def stripPrefixL (pre : List Char) (l : List Char) : Option (List Char) :=
  match pre, l with
  | [], l => some l
  | _ :: _, [] => none
  | p :: ps, c :: cs => if p = c then stripPrefixL ps cs else none

/-- The prefix of `l` up to and including the last occurrence of `ch`
(meaningful when `ch ∈ l`). -/
def takeUpToLast (ch : Char) (l : List Char) : List Char :=
  (l.reverse.dropWhile (fun c => c ≠ ch)).reverse

/-- The fenced-code-block pattern: the captured group, `none` on no match. -/
def tryCodeBlockL (l : List Char) : Option (List Char) :=
  match stripPrefixL "```".data l with
  | none => none
  | some r0 =>
    let r1 := match stripPrefixL "json".data r0 with
      | some r => r
      | none => r0
    let r2 := r1.dropWhile jsWhite
    if r2.length ≥ 4 ∧ r2.drop (r2.length - 4) = '\n' :: "```".data then
      some (r2.take (r2.length - 4))
    else if r2.length ≥ 3 ∧ r2.drop (r2.length - 3) = "```".data then
      some (r2.take (r2.length - 3))
    else none

/-- The inline-backtick pattern `` ^`([\s\S]*?)`$ ``: the captured group.
The input must be at least two characters, starting and ending in a
backtick; the capture is everything between the first and the last. -/
def tryInlineL (l : List Char) : Option (List Char) :=
  match l with
  | c :: d :: ds =>
    if c = '`' ∧ (d :: ds).getLast? = some '`' then some ((d :: ds).dropLast) else none
  | _ => none

/-- The unanchored `(\{[\s\S]*\}|\[[\s\S]*\])` pattern: the leftmost
match, running to the last closer. -/
def tryJsonSpanL : List Char → Option (List Char)
  | [] => none
  | c :: t =>
    if c = braceOpen ∧ braceClose ∈ t then
      some (c :: takeUpToLast braceClose t)
    else if c = '[' ∧ ']' ∈ t then
      some (c :: takeUpToLast ']' t)
    else tryJsonSpanL t

/-- The third and fourth stages: the brace/bracket span trimmed, else the
trimmed content unchanged. -/
def jsonSpanStage (c : String) : String :=
  match tryJsonSpanL c.data with
  | some m => if m.isEmpty then c else jsTrim (String.mk m)
  | none => c

/-- The second stage: an inline code span with a non-empty (truthy)
capture, else fall through. -/
def inlineStage (c : String) : String :=
  match tryInlineL c.data with
  | some cap => if cap.isEmpty then jsonSpanStage c else jsTrim (String.mk cap)
  | none => jsonSpanStage c

/-- `extractJsonFromResponse`: trim, then try the fenced block, the
inline span, the brace/bracket span, else return the trimmed content. -/
def extractJsonFromResponse (content : String) : String :=
  let c := jsTrim content
  match tryCodeBlockL c.data with
  | some cap => if cap.isEmpty then inlineStage c else jsTrim (String.mk cap)
  | none => inlineStage c

/-! ## Theorems

### C1 — `validatePlanSafety` rule priority -/

/-- Rule 1 violated: constraints supplied with a nonzero `maxSteps` the
step count exceeds. -/
def ExceedsMaxSteps (constraints : Option PlanConstraints) (plan : ToolChainPlan) : Prop :=
  ∃ c, constraints = some c ∧ c.maxSteps ≠ 0 ∧ (plan.steps.length : Int) > c.maxSteps

/-- Rule 2 violated: some step names a tool in `constraints.excludeTools`. -/
def UsesExcludedTool (constraints : Option PlanConstraints) (plan : ToolChainPlan) : Prop :=
  ∃ c ex, constraints = some c ∧ c.excludeTools = some ex ∧
    ∃ step ∈ plan.steps, step.toolName ∈ ex

/-- Rule 3 violated: some step names a tool outside the 25-tool vocabulary. -/
def UsesUnknownTool (plan : ToolChainPlan) : Prop :=
  ∃ step ∈ plan.steps, step.toolName ∉ AVAILABLE_TOOLS

/-- Rule 4 violated: some step's `dependsOn` references an id that is no
step's `stepId`. -/
def HasDanglingDep (plan : ToolChainPlan) : Prop :=
  ∃ step ∈ plan.steps, ∃ depId ∈ step.dependsOn.getD [],
    depId ∉ plan.steps.map (fun s : ToolChainStep => s.stepId)

theorem filter_length_pos_iff {α : Type} (l : List α) (p : α → Bool) :
    (l.filter p).length > 0 ↔ ∃ a ∈ l, p a = true := by
  rw [gt_iff_lt, List.length_pos_iff_exists_mem]
  constructor
  · rintro ⟨a, ha⟩
    exact ⟨a, (List.mem_filter.mp ha).1, (List.mem_filter.mp ha).2⟩
  · rintro ⟨a, ha, hpa⟩
    exact ⟨a, List.mem_filter.mpr ⟨ha, hpa⟩⟩

theorem tooManyStepsB_iff (plan : ToolChainPlan) (constraints : Option PlanConstraints) :
    tooManyStepsB plan constraints = true ↔ ExceedsMaxSteps constraints plan := by
  cases constraints with
  | none => simp [tooManyStepsB, ExceedsMaxSteps]
  | some c => simp [tooManyStepsB, ExceedsMaxSteps]

theorem usedExcludedB_iff (plan : ToolChainPlan) (constraints : Option PlanConstraints) :
    usedExcludedB plan constraints = true ↔ UsesExcludedTool constraints plan := by
  cases constraints with
  | none => simp [usedExcludedB, UsesExcludedTool]
  | some c =>
    cases hex : c.excludeTools with
    | none => simp [usedExcludedB, UsesExcludedTool, hex]
    | some ex =>
      simp only [usedExcludedB, hex, UsesExcludedTool, filter_length_pos_iff]
      simp [hex]

theorem invalidToolsB_iff (plan : ToolChainPlan) :
    invalidToolsB plan = true ↔ UsesUnknownTool plan := by
  simp only [invalidToolsB, UsesUnknownTool, filter_length_pos_iff]
  simp

theorem danglingDepB_iff (plan : ToolChainPlan) :
    danglingDepB plan = true ↔ HasDanglingDep plan := by
  simp [danglingDepB, HasDanglingDep]

/-- A plan whose only potential violation is its confidence. -/
def onlyConfidencePlan (q : ℚ) : ToolChainPlan :=
  { planId := "plan-1", userIntent := "intent", confidence := q,
    estimatedDuration := "1 minute",
    steps := [{ toolName := "smart_score", description := "score", stepId := "step1" }],
    expectedOutputs := ["score"] }

theorem validatePlanSafety_onlyConfidence (q : ℚ) :
    validatePlanSafety (onlyConfidencePlan q) none =
      if q < 0.6 then Except.error "LOW_CONFIDENCE_PLAN" else Except.ok () := by
  have h1 : tooManyStepsB (onlyConfidencePlan q) none = false := rfl
  have h2 : usedExcludedB (onlyConfidencePlan q) none = false := rfl
  have h3 : invalidToolsB (onlyConfidencePlan q) = false := rfl
  have h4 : danglingDepB (onlyConfidencePlan q) = false := rfl
  have hc : (onlyConfidencePlan q).confidence = q := rfl
  simp [validatePlanSafety, h1, h2, h3, h4, hc]

/-- **C1 (amended).** `validatePlanSafety` evaluates the five safety rules
in the fixed priority order — (1) step count exceeds a supplied *nonzero*
`maxSteps` (JS truthiness skips the check when the supplied `maxSteps`
is 0), (2) a step uses a tool in `constraints.excludeTools`, (3) a step
uses a tool outside the closed 25-tool vocabulary, (4) a `dependsOn`
references a missing `stepId`, (5) confidence < 0.6 — raising the
distinctly-coded error of the first violated rule, and returning
normally iff no rule is violated; a plan whose only potential violation
is confidence is rejected at 0.59 and accepted at 0.60. -/
theorem validatePlanSafety_rule_priority (plan : ToolChainPlan)
    (constraints : Option PlanConstraints) :
    (validatePlanSafety plan constraints = Except.ok () ↔
      ¬ExceedsMaxSteps constraints plan ∧ ¬UsesExcludedTool constraints plan ∧
      ¬UsesUnknownTool plan ∧ ¬HasDanglingDep plan ∧ ¬(plan.confidence < 0.6)) ∧
    (validatePlanSafety plan constraints = Except.error "PLAN_TOO_COMPLEX" ↔
      ExceedsMaxSteps constraints plan) ∧
    (validatePlanSafety plan constraints = Except.error "EXCLUDED_TOOLS_USED" ↔
      ¬ExceedsMaxSteps constraints plan ∧ UsesExcludedTool constraints plan) ∧
    (validatePlanSafety plan constraints = Except.error "UNKNOWN_TOOLS" ↔
      ¬ExceedsMaxSteps constraints plan ∧ ¬UsesExcludedTool constraints plan ∧
      UsesUnknownTool plan) ∧
    (validatePlanSafety plan constraints = Except.error "INVALID_DEPENDENCY" ↔
      ¬ExceedsMaxSteps constraints plan ∧ ¬UsesExcludedTool constraints plan ∧
      ¬UsesUnknownTool plan ∧ HasDanglingDep plan) ∧
    (validatePlanSafety plan constraints = Except.error "LOW_CONFIDENCE_PLAN" ↔
      ¬ExceedsMaxSteps constraints plan ∧ ¬UsesExcludedTool constraints plan ∧
      ¬UsesUnknownTool plan ∧ ¬HasDanglingDep plan ∧ plan.confidence < 0.6) ∧
    validatePlanSafety (onlyConfidencePlan (59/100)) none =
      Except.error "LOW_CONFIDENCE_PLAN" ∧
    validatePlanSafety (onlyConfidencePlan (60/100)) none = Except.ok () := by
  have hc59 : validatePlanSafety (onlyConfidencePlan (59/100)) none =
      Except.error "LOW_CONFIDENCE_PLAN" := by
    rw [validatePlanSafety_onlyConfidence, if_pos (by norm_num)]
  have hc60 : validatePlanSafety (onlyConfidencePlan (60/100)) none = Except.ok () := by
    rw [validatePlanSafety_onlyConfidence, if_neg (by norm_num)]
  refine ⟨?_, ?_, ?_, ?_, ?_, ?_, hc59, hc60⟩ <;>
  · simp only [← tooManyStepsB_iff, ← usedExcludedB_iff, ← invalidToolsB_iff, ← danglingDepB_iff]
    cases h1 : tooManyStepsB plan constraints <;>
      cases h2 : usedExcludedB plan constraints <;>
      cases h3 : invalidToolsB plan <;>
      cases h4 : danglingDepB plan <;>
      by_cases h5 : plan.confidence < 0.6 <;>
      simp [validatePlanSafety, h1, h2, h3, h4, h5]

/-- **C1, counterexample to the claim as stated**: a constraints record is
supplied whose `maxSteps` (0) the single-step plan's step count exceeds,
yet `validatePlanSafety` accepts the plan (JS truthiness of
`constraints?.maxSteps` skips the rule for 0). -/
theorem validatePlanSafety_maxSteps_zero_accepted :
    ((onlyConfidencePlan (9/10)).steps.length : Int) >
      (PlanConstraints.mk 0 none none false).maxSteps ∧
    validatePlanSafety (onlyConfidencePlan (9/10))
      (some (PlanConstraints.mk 0 none none false)) = Except.ok () := by
  have h1 : tooManyStepsB (onlyConfidencePlan (9/10))
      (some (PlanConstraints.mk 0 none none false)) = false := rfl
  have h2 : usedExcludedB (onlyConfidencePlan (9/10))
      (some (PlanConstraints.mk 0 none none false)) = false := rfl
  have h3 : invalidToolsB (onlyConfidencePlan (9/10)) = false := rfl
  have h4 : danglingDepB (onlyConfidencePlan (9/10)) = false := rfl
  have hc : (onlyConfidencePlan (9/10)).confidence = 9/10 := rfl
  refine ⟨by decide, ?_⟩
  simp [validatePlanSafety, h1, h2, h3, h4, hc,
    if_neg (show ¬((9:ℚ)/10 < 0.6) by norm_num)]

/-! ### C7 — `performRealityCheck` additive risk score -/

theorem jsDedup_go_mem (l : List String) : ∀ (seen : List String) (a : String),
    a ∈ jsDedup.go seen l ↔ a ∈ l ∧ a ∉ seen := by
  induction l with
  | nil => intro seen a; simp [jsDedup.go]
  | cons b t ih =>
    intro seen a
    by_cases hb : b ∈ seen
    · rw [jsDedup.go, if_pos hb, ih]
      constructor
      · rintro ⟨h1, h2⟩; exact ⟨List.mem_cons_of_mem _ h1, h2⟩
      · rintro ⟨h1, h2⟩
        rcases List.mem_cons.mp h1 with rfl | h1
        · exact absurd hb h2
        · exact ⟨h1, h2⟩
    · rw [jsDedup.go, if_neg hb]
      constructor
      · intro h
        rcases List.mem_cons.mp h with rfl | h
        · exact ⟨List.mem_cons_self _ _, hb⟩
        · have := (ih (b :: seen) a).mp h
          refine ⟨List.mem_cons_of_mem _ this.1, fun hs => this.2 (List.mem_cons_of_mem _ hs)⟩
      · rintro ⟨h1, h2⟩
        rcases List.mem_cons.mp h1 with rfl | h1
        · exact List.mem_cons_self _ _
        · by_cases hab : a = b
          · subst hab; exact List.mem_cons_self _ _
          · exact List.mem_cons_of_mem _ ((ih (b :: seen) a).mpr
              ⟨h1, fun hs => (List.mem_cons.mp hs).elim hab h2⟩)

theorem jsDedup_mem (l : List String) (a : String) : a ∈ jsDedup l ↔ a ∈ l := by
  rw [jsDedup, jsDedup_go_mem]
  simp

theorem jsDedup_go_nodup (l : List String) : ∀ seen : List String,
    (jsDedup.go seen l).Nodup := by
  induction l with
  | nil => intro seen; simp [jsDedup.go]
  | cons b t ih =>
    intro seen
    by_cases hb : b ∈ seen
    · rw [jsDedup.go, if_pos hb]; exact ih seen
    · rw [jsDedup.go, if_neg hb]
      refine List.Nodup.cons ?_ (ih (b :: seen))
      intro hmem
      exact ((jsDedup_go_mem t (b :: seen) b).mp hmem).2 (List.mem_cons_self _ _)

theorem jsDedup_nodup (l : List String) : (jsDedup l).Nodup :=
  jsDedup_go_nodup l []

/-- The dedup-then-filter count of the source equals the distinct-element
count over the finset of actions. -/
theorem jsDedup_filter_card (l : List String) (p : String → Bool) :
    ((jsDedup l).filter p).length = (l.toFinset.filter (fun a => p a = true)).card := by
  have hnd : ((jsDedup l).filter p).Nodup := (jsDedup_nodup l).filter p
  rw [← List.toFinset_card_of_nodup hnd]
  congr 1
  ext a
  simp [List.mem_filter, jsDedup_mem]

/-- A session context with a long conversation and nothing else. -/
def longConvCtx : SessionContext := { conversationLength := some 25 }

/-- `longConvCtx` with `stuckOnTask` additionally set. -/
def longConvStuckCtx : SessionContext :=
  { conversationLength := some 25, stuckOnTask := some "the stuck task" }

open Classical in
/-- **C7.** `performRealityCheck` computes an additive risk score (+2 when
a supplied `conversationLength` exceeds 20, +1 per distinct tool used
more than 3 times in `previousActions`, +1 per confusion keyword found
in the lowercased request, +3 when `stuckOnTask` is set non-empty) and
buckets it as `high` iff the score is ≥ 5, `medium` iff ≥ 2 (and < 5),
else `low`; for `conversationLength = 25`, no previous actions, no
`stuckOnTask`, and a request with no confusion keyword, the risk is
exactly `medium`, and the same context with `stuckOnTask` set yields
`high`. -/
theorem performRealityCheck_additive_score (sessionCtx : Option SessionContext)
    (userRequest : String) :
    (realityRiskScore sessionCtx userRequest =
      (if ∃ ctx, sessionCtx = some ctx ∧
          ∃ n, ctx.conversationLength = some n ∧ n > 20 then 2 else 0) +
      (match sessionCtx with
       | some ctx =>
         match ctx.previousActions with
         | some actions =>
           (actions.toFinset.filter (fun tool => actions.count tool > 3)).card
         | none => 0
       | none => 0) +
      confusionKeywords.countP (fun keyword => jsIncludes (jsLower userRequest) keyword) +
      (if ∃ ctx, sessionCtx = some ctx ∧
          ∃ s, ctx.stuckOnTask = some s ∧ s ≠ "" then 3 else 0)) ∧
    (performRealityCheck sessionCtx userRequest = HallucinationRisk.high ↔
      5 ≤ realityRiskScore sessionCtx userRequest) ∧
    (performRealityCheck sessionCtx userRequest = HallucinationRisk.medium ↔
      2 ≤ realityRiskScore sessionCtx userRequest ∧
      realityRiskScore sessionCtx userRequest < 5) ∧
    (performRealityCheck sessionCtx userRequest = HallucinationRisk.low ↔
      realityRiskScore sessionCtx userRequest < 2) ∧
    ((confusionKeywords.filter
        (fun keyword => jsIncludes (jsLower userRequest) keyword)).length = 0 →
      performRealityCheck (some longConvCtx) userRequest = HallucinationRisk.medium ∧
      performRealityCheck (some longConvStuckCtx) userRequest = HallucinationRisk.high) := by
  have hbuckets : ∀ (c : Option SessionContext) (r : String),
      (performRealityCheck c r = HallucinationRisk.high ↔ 5 ≤ realityRiskScore c r) ∧
      (performRealityCheck c r = HallucinationRisk.medium ↔
        2 ≤ realityRiskScore c r ∧ realityRiskScore c r < 5) ∧
      (performRealityCheck c r = HallucinationRisk.low ↔ realityRiskScore c r < 2) := by
    intro c r
    unfold performRealityCheck
    by_cases h5 : realityRiskScore c r ≥ 5 <;> by_cases h2 : realityRiskScore c r ≥ 2 <;>
      simp [h5, h2] <;> omega
  refine ⟨?_, (hbuckets _ _).1, (hbuckets _ _).2.1, (hbuckets _ _).2.2, ?_⟩
  · have hguard : ∀ n : Int, (if ¬n = 0 ∧ 20 < n then (2 : ℕ) else 0) =
        (if 20 < n then 2 else 0) := by
      intro n
      by_cases hn : (20 : Int) < n
      · rw [if_pos ⟨by omega, hn⟩, if_pos hn]
      · rw [if_neg (fun h => hn h.2), if_neg hn]
    rcases sessionCtx with _ | ⟨conv, prev, confInd, lastA, stuck⟩
    · simp [realityRiskScore, List.countP_eq_length_filter]
    · rcases conv with _ | n <;> rcases prev with _ | actions <;> rcases stuck with _ | s <;>
        simp [realityRiskScore, List.countP_eq_length_filter, jsDedup_filter_card, hguard]
  · intro hkw
    have hscore1 : realityRiskScore (some longConvCtx) userRequest = 2 := by
      simp [realityRiskScore, longConvCtx, hkw]
    have hscore2 : realityRiskScore (some longConvStuckCtx) userRequest = 5 := by
      simp [realityRiskScore, longConvStuckCtx, hkw]
    constructor
    · rw [(hbuckets _ _).2.1, hscore1]; omega
    · rw [(hbuckets _ _).1, hscore2]

/-! ### C8 — fallback intent analysis -/

theorem matchedTools_pos_iff (r : String) :
    (matchedTools r).length > 0 ↔
      ∃ kv ∈ keywordMap, jsIncludes (jsLower r) kv.1 = true := by
  rw [gt_iff_lt, List.length_pos_iff_exists_mem]
  constructor
  · rintro ⟨a, ha⟩
    obtain ⟨kv, hkv, _⟩ := List.mem_flatMap.mp ha
    exact ⟨kv, (List.mem_filter.mp hkv).1, (List.mem_filter.mp hkv).2⟩
  · rintro ⟨kv, hkv, hmatch⟩
    have hne : ∀ kv ∈ keywordMap, kv.2 ≠ ([] : List String) := by decide
    obtain ⟨t, ht⟩ := List.exists_mem_of_ne_nil kv.2 (hne kv hkv)
    exact ⟨t, List.mem_flatMap.mpr ⟨kv, List.mem_filter.mpr ⟨hkv, hmatch⟩, ht⟩⟩

/-- **C8.** With AI execution disabled, or the AI call failing,
`analyzeUserIntent` returns the deterministic keyword-table fallback;
the fallback's `suggestedTools` are deduplicated, capped at 5 and drawn
from the tools mapped by matched keywords; confidence is 0.7 iff at
least one keyword matched and 0.3 otherwise; and the request
"analyze this project" yields category `analysis`, a `suggestedTools`
containing `analyze_project_ecosystem`, and confidence 0.7. -/
theorem analyzeUserIntent_fallback_spec (userRequest : String) (aiEnabled : Bool)
    (aiOutcome : Except Unit IntentAnalysis) :
    analyzeUserIntent false aiOutcome userRequest = fallbackIntentAnalysis userRequest ∧
    analyzeUserIntent aiEnabled (Except.error ()) userRequest =
      fallbackIntentAnalysis userRequest ∧
    (fallbackIntentAnalysis userRequest).suggestedTools.Nodup ∧
    (fallbackIntentAnalysis userRequest).suggestedTools.length ≤ 5 ∧
    ((fallbackIntentAnalysis userRequest).confidence = 0.7 ↔
      ∃ kv ∈ keywordMap, jsIncludes (jsLower userRequest) kv.1 = true) ∧
    ((fallbackIntentAnalysis userRequest).confidence = 0.7 ∨
      (fallbackIntentAnalysis userRequest).confidence = 0.3) ∧
    (∀ tool ∈ (fallbackIntentAnalysis userRequest).suggestedTools,
      ∃ kv ∈ keywordMap, jsIncludes (jsLower userRequest) kv.1 = true ∧ tool ∈ kv.2) ∧
    (fallbackIntentAnalysis "analyze this project").category = "analysis" ∧
    "analyze_project_ecosystem" ∈
      (fallbackIntentAnalysis "analyze this project").suggestedTools ∧
    (fallbackIntentAnalysis "analyze this project").confidence = 0.7 := by
  have htools : ∀ r : String, (fallbackIntentAnalysis r).suggestedTools =
      (jsDedup (matchedTools r)).take 5 := fun _ => rfl
  have hconf : ∀ r : String, (fallbackIntentAnalysis r).confidence =
      if (matchedTools r).length > 0 then (0.7 : ℚ) else 0.3 := fun _ => rfl
  refine ⟨rfl, ?_, ?_, ?_, ?_, ?_, ?_, rfl, ?_, ?_⟩
  · cases aiEnabled <;> rfl
  · rw [htools]
    exact (jsDedup_nodup _).sublist (List.take_sublist _ _)
  · rw [htools]
    exact List.length_take_le _ _
  · rw [hconf, ← matchedTools_pos_iff]
    by_cases h : (matchedTools userRequest).length > 0
    · rw [if_pos h]
      exact iff_of_true rfl h
    · rw [if_neg h]
      exact iff_of_false (by norm_num) h
  · rw [hconf]
    by_cases h : (matchedTools userRequest).length > 0
    · rw [if_pos h]; exact Or.inl rfl
    · rw [if_neg h]; exact Or.inr rfl
  · intro tool htool
    rw [htools] at htool
    have hmem : tool ∈ matchedTools userRequest :=
      (jsDedup_mem _ _).mp (List.take_subset _ _ htool)
    obtain ⟨kv, hkv, ht⟩ := List.mem_flatMap.mp hmem
    exact ⟨kv, (List.mem_filter.mp hkv).1, (List.mem_filter.mp hkv).2, ht⟩
  · rw [htools]
    decide
  · rw [hconf, if_pos (by decide)]

/-! ### C10 — zero-valued numeric environment settings fall back to defaults -/

theorem parseFloatJs_zero : parseFloatJs "0" = some 0 := by
  have h : parseFloatJs "0" =
      some (((0 : Nat) : ℚ) + ((0 : Nat) : ℚ) / (10 : ℚ) ^ (0 : Nat)) := rfl
  rw [h]
  norm_num

theorem jsOrQ_ne_zero (v : Option ℚ) (d : ℚ) (hd : d ≠ 0) : jsOrQ v d ≠ 0 := by
  rcases v with _ | q
  · simpa [jsOrQ] using hd
  · by_cases hq : q = 0 <;> simp [jsOrQ, hq, hd]

theorem jsOrI_ne_zero (v : Option Int) (d : Int) (hd : d ≠ 0) : jsOrI v d ≠ 0 := by
  rcases v with _ | n
  · simpa [jsOrI] using hd
  · by_cases hn : n = 0 <;> simp [jsOrI, hn, hd]

/-- An environment that asks for temperature 0 and zero retries, in
`prompt-only` mode so that configuration loading succeeds. -/
def zeroNumEnv : Env := fun k =>
  if k = "EXECUTION_MODE" then some "prompt-only"
  else if k = "AI_TEMPERATURE" then some "0"
  else if k = "AI_MAX_RETRIES" then some "0"
  else none

/-- **C10.** Zero-valued numeric environment settings are
indistinguishable from unset ones: with `AI_TEMPERATURE="0"` the loaded
configuration's temperature is the 0.1 default, with
`AI_MAX_RETRIES="0"` `maxRetries` is the default 3 (the falsy parsed 0
is replaced by the default), so no environment can configure zero
temperature or zero retries; `loadAIConfig`'s successful result is
exactly the built record. -/
theorem loadAIConfig_zero_env_defaults (env : Env) :
    (env "AI_TEMPERATURE" = some "0" →
      (buildAIConfig env).temperature = DEFAULT_AI_CONFIG.temperature) ∧
    (env "AI_MAX_RETRIES" = some "0" →
      (buildAIConfig env).maxRetries = DEFAULT_AI_CONFIG.maxRetries) ∧
    (buildAIConfig env).temperature ≠ 0 ∧
    (buildAIConfig env).maxRetries ≠ 0 ∧
    (∀ config, loadAIConfig env = Except.ok config → config = buildAIConfig env) ∧
    loadAIConfig zeroNumEnv = Except.ok (buildAIConfig zeroNumEnv) ∧
    (buildAIConfig zeroNumEnv).temperature = 0.1 ∧
    (buildAIConfig zeroNumEnv).maxRetries = 3 := by
  have htemp : (buildAIConfig env).temperature =
      jsOrQ (parseFloatJs (jsOrS (env "AI_TEMPERATURE") "")) DEFAULT_AI_CONFIG.temperature := rfl
  have hretr : (buildAIConfig env).maxRetries =
      jsOrI (parseIntJs (jsOrS (env "AI_MAX_RETRIES") "")) DEFAULT_AI_CONFIG.maxRetries := rfl
  refine ⟨?_, ?_, ?_, ?_, ?_, ?_, ?_, ?_⟩
  · intro h
    rw [htemp, h]
    have : jsOrS (some "0") "" = "0" := rfl
    rw [this, parseFloatJs_zero]
    simp [jsOrQ]
  · intro h
    rw [hretr, h]
    have h1 : parseIntJs (jsOrS (some "0") "") = some 0 := by decide
    rw [h1]
    simp [jsOrI]
  · rw [htemp]
    refine jsOrQ_ne_zero _ _ ?_
    norm_num [DEFAULT_AI_CONFIG]
  · rw [hretr]
    refine jsOrI_ne_zero _ _ ?_
    decide
  · intro config h
    have h' : (match validateProviderConfig (buildAIConfig env) with
        | Except.error e => (Except.error e : Except String AIConfig)
        | Except.ok _ => Except.ok (buildAIConfig env)) = Except.ok config := h
    rcases hv : validateProviderConfig (buildAIConfig env) with e | u
    · rw [hv] at h'; cases h'
    · rw [hv] at h'; cases h'; rfl
  · rfl
  · have h : (buildAIConfig zeroNumEnv).temperature =
        jsOrQ (parseFloatJs "0") DEFAULT_AI_CONFIG.temperature := rfl
    rw [h, parseFloatJs_zero]
    simp [jsOrQ, DEFAULT_AI_CONFIG]
  · decide

/-! ### C4 — provider validation enumerates every missing field -/

/-- `needle` occurs contiguously inside `hay`. -/
def SubstringOf (needle hay : String) : Prop :=
  ∃ p s : String, hay = p ++ needle ++ s

theorem substringOf_self (a : String) : SubstringOf a a :=
  ⟨"", "", by apply String.ext; simp [String.data_append]⟩

/-- Every element of a joined list occurs in the joined string. -/
theorem mem_jsJoin_substring (sep : String) (l : List String) (a : String) (ha : a ∈ l) :
    SubstringOf a (jsJoin sep l) := by
  induction l with
  | nil => cases ha
  | cons b t ih =>
    rcases t with _ | ⟨c, t'⟩
    · rcases List.mem_singleton.mp ha with rfl
      exact substringOf_self a
    · rcases List.mem_cons.mp ha with rfl | ha'
      · exact ⟨"", sep ++ jsJoin sep (c :: t'),
          by apply String.ext; simp [jsJoin, String.data_append]⟩
      · obtain ⟨p, s, he⟩ := ih ha'
        exact ⟨b ++ sep ++ p, s,
          by apply String.ext; simp [jsJoin, he, String.data_append]⟩

theorem azureMissingMessage_contains_field (missing : List String) (f : String)
    (hf : f ∈ missing) : SubstringOf f (azureMissingMessage missing) := by
  obtain ⟨p, s, he⟩ := mem_jsJoin_substring ", " missing f hf
  refine ⟨"Azure AI Foundry requires the following environment variables: " ++ p,
    s ++ (". Set AI_PROVIDER=openrouter or AI_PROVIDER=openai to use a different provider, " ++
      "or set EXECUTION_MODE=prompt-only to disable AI execution."), ?_⟩
  apply String.ext
  simp [azureMissingMessage, he, String.data_append]

theorem azureMissingMessage_names_provider (missing : List String) :
    SubstringOf "Azure AI Foundry" (azureMissingMessage missing) := by
  refine ⟨"", " requires the following environment variables: " ++ jsJoin ", " missing ++
    (". Set AI_PROVIDER=openrouter or AI_PROVIDER=openai to use a different provider, " ++
      "or set EXECUTION_MODE=prompt-only to disable AI execution."), ?_⟩
  have hsplit : ("Azure AI Foundry requires the following environment variables: " : String) =
      "Azure AI Foundry" ++ " requires the following environment variables: " := by decide
  apply String.ext
  simp [azureMissingMessage, hsplit, String.data_append]

theorem azureMissingMessage_suggests_prompt_only (missing : List String) :
    SubstringOf "EXECUTION_MODE=prompt-only" (azureMissingMessage missing) := by
  refine ⟨"Azure AI Foundry requires the following environment variables: " ++
    jsJoin ", " missing ++
    ". Set AI_PROVIDER=openrouter or AI_PROVIDER=openai to use a different provider, " ++
    "or set ", " to disable AI execution.", ?_⟩
  have hsplit : ("or set EXECUTION_MODE=prompt-only to disable AI execution." : String) =
      "or set " ++ "EXECUTION_MODE=prompt-only" ++ " to disable AI execution." := by decide
  apply String.ext
  simp [azureMissingMessage, hsplit, String.data_append]

/-- A `full`-mode azure environment with no azure variable set. -/
def azureEmptyEnv : Env := fun k => if k = "AI_PROVIDER" then some "azure" else none

theorem validateProviderConfig_ok_iff (config : AIConfig) :
    validateProviderConfig config = Except.ok () ↔
      ¬(config.executionMode = "full" ∧ missingProviderVars config ≠ []) := by
  by_cases hm : config.executionMode = "full"
  · by_cases hpa : config.provider = "azure"
    · by_cases hlen : (missingProviderVars config).length > 0
      · have hne := List.length_pos_iff_ne_nil.mp hlen
        simp [validateProviderConfig, hm, hpa, hlen, hne]
      · have hnil : missingProviderVars config = [] := by
          by_contra hne
          exact hlen (List.length_pos_iff_ne_nil.mpr hne)
        simp [validateProviderConfig, hm, hpa, hlen, hnil]
    · by_cases hpo : config.provider = "openai" <;>
        by_cases hk : config.apiKey = "" <;>
        simp [validateProviderConfig, missingProviderVars, hm, hpa, hpo, hk]
  · simp [validateProviderConfig, hm]

theorem validateProviderConfig_azure_error (config : AIConfig)
    (hm : config.executionMode = "full") (hpa : config.provider = "azure")
    (hne : missingProviderVars config ≠ []) :
    validateProviderConfig config =
      Except.error (azureMissingMessage (missingProviderVars config)) := by
  have hlen : (missingProviderVars config).length > 0 := List.length_pos_iff_ne_nil.mpr hne
  simp [validateProviderConfig, hm, hpa, hlen]

theorem validateProviderConfig_error_contains (config : AIConfig) (e : String)
    (he : validateProviderConfig config = Except.error e) :
    (∀ f ∈ missingProviderVars config, SubstringOf f e) ∧
    SubstringOf "EXECUTION_MODE=prompt-only" e := by
  by_cases hm : config.executionMode = "full"
  · by_cases hpa : config.provider = "azure"
    · by_cases hlen : (missingProviderVars config).length > 0
      · have heq : e = azureMissingMessage (missingProviderVars config) := by
          have h2 := validateProviderConfig_azure_error config hm hpa
            (List.length_pos_iff_ne_nil.mp hlen)
          rw [he] at h2
          exact ((Except.error.injEq _ _).mp h2.symm).symm
        subst heq
        exact ⟨fun f hf => azureMissingMessage_contains_field _ f hf,
          azureMissingMessage_suggests_prompt_only _⟩
      · exfalso
        have hnil : missingProviderVars config = [] := by
          by_contra hne
          exact hlen (List.length_pos_iff_ne_nil.mpr hne)
        rw [(validateProviderConfig_ok_iff config).mpr (by simp [hnil])] at he
        cases he
    · by_cases hpo : config.provider = "openai" <;> by_cases hk : config.apiKey = ""
      · have heq : e = openaiMissingMessage := by
          have h2 : validateProviderConfig config = Except.error openaiMissingMessage := by
            simp [validateProviderConfig, hm, hpa, hpo, hk]
          rw [he] at h2
          exact ((Except.error.injEq _ _).mp h2.symm).symm
        subst heq
        constructor
        · intro f hf
          simp [missingProviderVars, hpa, hpo, hk] at hf
          subst hf
          exact ⟨"OpenAI requires ", " environment variable. Set AI_PROVIDER=openrouter or AI_PROVIDER=azure to use a different provider, or set EXECUTION_MODE=prompt-only to disable AI execution.", by decide⟩
        · exact ⟨"OpenAI requires OPENAI_API_KEY environment variable. Set AI_PROVIDER=openrouter or AI_PROVIDER=azure to use a different provider, or set ", " to disable AI execution.", by decide⟩
      · exfalso
        rw [(validateProviderConfig_ok_iff config).mpr
          (by simp [missingProviderVars, hpa, hpo, hk])] at he
        cases he
      · have heq : e = openrouterMissingMessage := by
          have h2 : validateProviderConfig config = Except.error openrouterMissingMessage := by
            simp [validateProviderConfig, hm, hpa, hpo, hk]
          rw [he] at h2
          exact ((Except.error.injEq _ _).mp h2.symm).symm
        subst heq
        constructor
        · intro f hf
          simp [missingProviderVars, hpa, hpo, hk] at hf
          subst hf
          exact ⟨"OpenRouter requires ", " environment variable. Get your API key at https://openrouter.ai/keys. Set AI_PROVIDER=azure or AI_PROVIDER=openai to use a different provider, or set EXECUTION_MODE=prompt-only to disable AI execution.", by decide⟩
        · exact ⟨"OpenRouter requires OPENROUTER_API_KEY environment variable. Get your API key at https://openrouter.ai/keys. Set AI_PROVIDER=azure or AI_PROVIDER=openai to use a different provider, or set ", " to disable AI execution.", by decide⟩
      · exfalso
        rw [(validateProviderConfig_ok_iff config).mpr
          (by simp [missingProviderVars, hpa, hpo, hk])] at he
        cases he
  · exfalso
    rw [(validateProviderConfig_ok_iff config).mpr (by simp [hm])] at he
    cases he

theorem loadAIConfig_of_validate_ok (env : Env)
    (h : validateProviderConfig (buildAIConfig env) = Except.ok ()) :
    loadAIConfig env = Except.ok (buildAIConfig env) := by
  show (match validateProviderConfig (buildAIConfig env) with
      | Except.error e => (Except.error e : Except String AIConfig)
      | Except.ok _ => Except.ok (buildAIConfig env)) = _
  rw [h]

theorem loadAIConfig_of_validate_error (env : Env) (e : String)
    (h : validateProviderConfig (buildAIConfig env) = Except.error e) :
    loadAIConfig env = Except.error e := by
  show (match validateProviderConfig (buildAIConfig env) with
      | Except.error e => (Except.error e : Except String AIConfig)
      | Except.ok _ => Except.ok (buildAIConfig env)) = _
  rw [h]

/-- **C4.** `validateProviderConfig` (and `loadAIConfig`, which calls it
and otherwise returns the built record) throws iff `executionMode` is
`full` and at least one required field of the active provider is empty;
every thrown message names every missing required field and suggests
switching to `prompt-only`; the azure error is the single message built
over the exact ordered list of absent azure fields and names the
provider; with `executionMode = prompt-only` loading never throws, even
with all credentials empty. -/
theorem validateProviderConfig_enumerates_missing :
    (∀ config : AIConfig, validateProviderConfig config = Except.ok () ↔
      ¬(config.executionMode = "full" ∧ missingProviderVars config ≠ [])) ∧
    (∀ config : AIConfig, config.executionMode = "prompt-only" →
      validateProviderConfig config = Except.ok ()) ∧
    (∀ config : AIConfig, config.executionMode = "full" → config.provider = "azure" →
      missingProviderVars config ≠ [] →
      validateProviderConfig config =
        Except.error (azureMissingMessage (missingProviderVars config)) ∧
      SubstringOf "Azure AI Foundry" (azureMissingMessage (missingProviderVars config))) ∧
    (∀ (config : AIConfig) (e : String), validateProviderConfig config = Except.error e →
      (∀ f ∈ missingProviderVars config, SubstringOf f e) ∧
      SubstringOf "EXECUTION_MODE=prompt-only" e) ∧
    (∀ env : Env, validateProviderConfig (buildAIConfig env) = Except.ok () →
      loadAIConfig env = Except.ok (buildAIConfig env)) ∧
    (∀ (env : Env) (e : String),
      validateProviderConfig (buildAIConfig env) = Except.error e →
      loadAIConfig env = Except.error e) ∧
    (∀ env : Env, env "EXECUTION_MODE" = some "prompt-only" →
      loadAIConfig env = Except.ok (buildAIConfig env)) ∧
    loadAIConfig azureEmptyEnv = Except.error (azureMissingMessage
      ["AZURE_OPENAI_ENDPOINT", "AZURE_OPENAI_API_KEY", "AZURE_OPENAI_DEPLOYMENT"]) := by
  refine ⟨validateProviderConfig_ok_iff, ?_, ?_, validateProviderConfig_error_contains,
    loadAIConfig_of_validate_ok, loadAIConfig_of_validate_error, ?_,
    loadAIConfig_of_validate_error azureEmptyEnv _ (by decide)⟩
  · intro config hpo
    rw [validateProviderConfig_ok_iff, hpo]
    simp
  · intro config hm hpa hne
    exact ⟨validateProviderConfig_azure_error config hm hpa hne,
      azureMissingMessage_names_provider _⟩
  · intro env hp
    apply loadAIConfig_of_validate_ok
    have hmode : (buildAIConfig env).executionMode = "prompt-only" := by
      show jsOrS (env "EXECUTION_MODE") DEFAULT_AI_CONFIG.executionMode = _
      rw [hp]
      rfl
    rw [validateProviderConfig_ok_iff, hmode]
    simp

/-! ### C3 — exhaustive retries with exponential backoff -/

theorem attemptLoop_fail_step (provider : Provider) (maxR : Int) (now : Int)
    (r fuel : Nat) (e : String) (he : provider r = Except.error e) :
    attemptLoop provider maxR now r (fuel + 1) =
      if ((r : Int) + 1) > maxR then
        (Except.error { code := "AI_EXECUTION_FAILED", retryable := false,
                        originalError := some e }, 1, [])
      else
        ((attemptLoop provider maxR now (r + 1) fuel).1,
         (attemptLoop provider maxR now (r + 1) fuel).2.1 + 1,
         min (1000 * 2 ^ r) 10000 :: (attemptLoop provider maxR now (r + 1) fuel).2.2) := by
  rw [attemptLoop, he]

theorem attemptLoop_fail_spec (provider : Provider) (m : Nat) (now : Int)
    (hfail : ∀ k, ∃ e, provider k = Except.error e) :
    ∀ (f r : Nat), r + f = m →
    ∃ e, provider m = Except.error e ∧
      attemptLoop provider (m : Int) now r (f + 1) =
        (Except.error { code := "AI_EXECUTION_FAILED", retryable := false,
                        originalError := some e }, f + 1,
         (List.range f).map (fun i => min (1000 * 2 ^ (r + i)) 10000)) := by
  intro f
  induction f with
  | zero =>
    intro r hr
    have hrm : r = m := by omega
    subst hrm
    obtain ⟨e, he⟩ := hfail r
    refine ⟨e, he, ?_⟩
    rw [attemptLoop_fail_step provider _ now r 0 e he, if_pos (by omega)]
    simp
  | succ f ih =>
    intro r hr
    obtain ⟨e0, he0⟩ := hfail r
    obtain ⟨e, he, hrec⟩ := ih (r + 1) (by omega)
    refine ⟨e, he, ?_⟩
    have hcond : ¬(((r : Int) + 1) > (m : Int)) := by omega
    rw [attemptLoop_fail_step provider _ now r (f + 1) e0 he0, if_neg hcond, hrec]
    refine congrArg _ (congrArg _ ?_)
    rw [List.range_succ_eq_map, List.map_cons, List.map_map]
    refine congrArg₂ _ (by norm_num) ?_
    apply List.map_congr_left
    intro i _
    simp only [Function.comp]
    have hx : r + 1 + i = r + (i + 1) := by omega
    rw [hx]

theorem executePrompt_empty_cache (config : AIConfig) (now : Int) (provider : Provider)
    (prompt : String) (options : ExecOptions)
    (hen : isAIExecutionEnabled config = true) :
    executePrompt config [] now provider prompt options =
      (match (attemptLoop provider config.maxRetries now 0
          (config.maxRetries + 1).toNat) with
       | (Except.ok result, calls, delays) =>
         { result := Except.ok result,
           cache := if config.cacheEnabled then
             setCachedResult config [] now
               (generateCacheKey prompt (jsOrS options.model config.defaultModel) options) result
             else [],
           calls := calls, delays := delays }
       | (Except.error e, calls, delays) =>
         { result := Except.error e, cache := [], calls := calls, delays := delays }) := by
  unfold executePrompt
  rw [hen]
  cases hc : config.cacheEnabled <;>
    rcases hA : attemptLoop provider config.maxRetries now 0 (config.maxRetries + 1).toNat with
      ⟨_ | _, calls, delays⟩ <;>
    simp [hc, hA, getCachedResult, cacheGet]

/-- Provider behaviour that fails every attempt. -/
def alwaysFailingProvider : Provider := fun k => Except.error ("failure " ++ toString k)

/-- The default configuration with a credential, so execution is enabled. -/
def keyedConfig : AIConfig := { DEFAULT_AI_CONFIG with apiKey := "test-key" }

/-- `keyedConfig` with `maxRetries` raised to 6. -/
def keyedConfig6 : AIConfig := { keyedConfig with maxRetries := 6 }

/-- **C3.** When every provider call fails and no cache hit occurs,
`executePrompt` makes exactly `maxRetries + 1` sequential call attempts,
awaiting `min(1000·2^(k−1), 10000)` ms before the k-th retry — 1s, 2s,
4s, 8s, then capped at 10s — and raises a single non-retryable
`AI_EXECUTION_FAILED` error wrapping the last underlying cause. -/
theorem executePrompt_exhausts_retries_with_backoff :
    (∀ (config : AIConfig) (provider : Provider) (prompt : String)
       (options : ExecOptions) (now : Int),
      isAIExecutionEnabled config = true →
      0 ≤ config.maxRetries →
      (∀ k, ∃ e, provider k = Except.error e) →
      (executePrompt config [] now provider prompt options).calls =
        config.maxRetries.toNat + 1 ∧
      (executePrompt config [] now provider prompt options).delays =
        (List.range config.maxRetries.toNat).map (fun k => min (1000 * 2 ^ k) 10000) ∧
      ∃ e, provider config.maxRetries.toNat = Except.error e ∧
        (executePrompt config [] now provider prompt options).result =
          Except.error { code := "AI_EXECUTION_FAILED", retryable := false,
                         originalError := some e }) ∧
    (executePrompt keyedConfig [] 0 alwaysFailingProvider "prompt" {}).calls = 4 ∧
    (executePrompt keyedConfig [] 0 alwaysFailingProvider "prompt" {}).delays =
      [1000, 2000, 4000] ∧
    (executePrompt keyedConfig [] 0 alwaysFailingProvider "prompt" {}).result =
      Except.error { code := "AI_EXECUTION_FAILED", retryable := false,
                     originalError := some "failure 3" } ∧
    (executePrompt keyedConfig6 [] 0 alwaysFailingProvider "prompt" {}).delays =
      [1000, 2000, 4000, 8000, 10000, 10000] := by
  refine ⟨?_, by decide, by decide, by decide, by decide⟩
  intro config provider prompt options now hen hmr hfail
  set m := config.maxRetries.toNat with hm
  have hcast : (config.maxRetries : Int) = (m : Int) := by
    rw [hm, Int.toNat_of_nonneg hmr]
  have hfuel : (config.maxRetries + 1).toNat = m + 1 := by omega
  obtain ⟨e, he, hloop⟩ := attemptLoop_fail_spec provider m now hfail m 0 (by omega)
  have hrun := executePrompt_empty_cache config now provider prompt options hen
  rw [hfuel, hcast, hloop] at hrun
  refine ⟨?_, ?_, e, he, ?_⟩ <;> simp [hrun]

/-! ### C5 — the cache key is not injective -/

/-- The content of a successful outcome. -/
def outContent (o : ExecOutcome) : Option String :=
  match o.result with
  | Except.ok r => some r.content
  | Except.error _ => none

/-- The `cached` tag of a successful outcome. -/
def outCached (o : ExecOutcome) : Option Bool :=
  match o.result with
  | Except.ok r => some r.metadata.cached
  | Except.error _ => none

/-- A provider that always answers with the given content. -/
def constantProvider (content : String) : Provider :=
  fun _ => Except.ok { content := some content, model := "model-x" }

/-- First run: prompt "Please analyze A", stored in the cache. -/
def collisionRunA : ExecOutcome :=
  executePrompt keyedConfig [] 0 (constantProvider "RESULT-A") "Please analyze A" {}

/-- Second run: the *different* prompt "Please analyze B" against the
cache left by the first run, with a provider that would answer
"RESULT-B". -/
def collisionRunB : ExecOutcome :=
  executePrompt keyedConfig collisionRunA.cache 0 (constantProvider "RESULT-B")
    "Please analyze B" {}

theorem generateCacheKey_not_injective :
    ("Please analyze A" : String) ≠ "Please analyze B" ∧
    generateCacheKey "Please analyze A" keyedConfig.defaultModel {} =
      generateCacheKey "Please analyze B" keyedConfig.defaultModel {} ∧
    outContent collisionRunA = some "RESULT-A" ∧
    outContent collisionRunB = some "RESULT-A" ∧
    outCached collisionRunB = some true ∧
    collisionRunB.calls = 0 := by
  refine ⟨by decide, by decide, by decide, by decide, by decide, by decide⟩

/-! ### C2 — cache-hit idempotence -/

/-- A first execution of prompt "p" from an empty cache. -/
def idemRun1 : ExecOutcome :=
  executePrompt keyedConfig [] 0 (constantProvider "hello") "p" {}

/-- The identical execution 1000 ms later, against a provider that would
answer differently. -/
def idemRun2 : ExecOutcome :=
  executePrompt keyedConfig idemRun1.cache 1000 (constantProvider "other") "p" {}

/-- A stored, unexpired entry short-circuits `executePrompt`: the entry's
result is returned tagged `cached`, with no provider call, no delay, and
the cache unchanged. -/
theorem executePrompt_cache_hit (config : AIConfig) (cache : Cache) (now : Int)
    (provider : Provider) (prompt : String) (options : ExecOptions) (entry : CacheEntry)
    (hcache : config.cacheEnabled = true)
    (hen : isAIExecutionEnabled config = true)
    (hget : cacheGet cache
      (generateCacheKey prompt (jsOrS options.model config.defaultModel) options) = some entry)
    (hfresh : ¬ now > entry.expiry) :
    executePrompt config cache now provider prompt options =
      { result := Except.ok { entry.result with
          metadata := { entry.result.metadata with cached := true } },
        cache := cache, calls := 0, delays := [] } := by
  unfold executePrompt
  rw [hen]
  simp [hcache, getCachedResult, hget, hfresh]

/-- **C2.** With caching enabled, an unexpired entry for the derived key
makes `executePrompt` return before any provider call; in particular the
second of two identical `(prompt, model, options)` executions within the
TTL (the first starting from an empty cache and succeeding) returns the
first result's content tagged `cached = true`, keeps the first
execution's `retryCount`, and issues zero further provider calls. -/
theorem executePrompt_cache_idempotent :
    (∀ (config : AIConfig) (cache : Cache) (now : Int) (provider : Provider)
       (prompt : String) (options : ExecOptions) (entry : CacheEntry),
      config.cacheEnabled = true →
      isAIExecutionEnabled config = true →
      cacheGet cache
        (generateCacheKey prompt (jsOrS options.model config.defaultModel) options) =
        some entry →
      ¬ now > entry.expiry →
      (executePrompt config cache now provider prompt options).calls = 0 ∧
      (executePrompt config cache now provider prompt options).cache = cache ∧
      (executePrompt config cache now provider prompt options).result =
        Except.ok { entry.result with
          metadata := { entry.result.metadata with cached := true } }) ∧
    (∀ (config : AIConfig) (now1 now2 : Int) (provider provider2 : Provider)
       (prompt : String) (options : ExecOptions) (r1 : AIExecutionResult),
      config.cacheEnabled = true →
      isAIExecutionEnabled config = true →
      (executePrompt config [] now1 provider prompt options).result = Except.ok r1 →
      now2 ≤ now1 + config.cacheTTL * 1000 →
      ∃ r2, (executePrompt config
          (executePrompt config [] now1 provider prompt options).cache
          now2 provider2 prompt options).result = Except.ok r2 ∧
        r2.metadata.cached = true ∧
        r2.content = r1.content ∧
        r2.metadata.retryCount = r1.metadata.retryCount ∧
        (executePrompt config
          (executePrompt config [] now1 provider prompt options).cache
          now2 provider2 prompt options).calls = 0 ∧
        (executePrompt config
          (executePrompt config [] now1 provider prompt options).cache
          now2 provider2 prompt options).delays = []) ∧
    outContent idemRun2 = some "hello" ∧
    outCached idemRun2 = some true ∧
    idemRun2.calls = 0 := by
  refine ⟨?_, ?_, by decide, by decide, by decide⟩
  · intro config cache now provider prompt options entry hcache hen hget hfresh
    rw [executePrompt_cache_hit config cache now provider prompt options entry
      hcache hen hget hfresh]
    exact ⟨rfl, rfl, rfl⟩
  · intro config now1 now2 provider provider2 prompt options r1 hcache hen hok httl
    have hrun := executePrompt_empty_cache config now1 provider prompt options hen
    set key := generateCacheKey prompt (jsOrS options.model config.defaultModel) options
      with hkey
    have hcachestate : (executePrompt config [] now1 provider prompt options).cache =
        [(key, { result := r1, expiry := now1 + config.cacheTTL * 1000 })] := by
      rcases hA : attemptLoop provider config.maxRetries now1 0
          (config.maxRetries + 1).toNat with ⟨res, calls, delays⟩
      rcases res with e | result
      · rw [hA] at hrun
        rw [hrun] at hok
        cases hok
      · rw [hA] at hrun
        rw [hrun] at hok ⊢
        have hr1 : result = r1 := by
          simpa using hok
        subst hr1
        simp [hcache, setCachedResult, cacheSet]
    have hget : cacheGet (executePrompt config [] now1 provider prompt options).cache key =
        some { result := r1, expiry := now1 + config.cacheTTL * 1000 } := by
      rw [hcachestate]
      simp [cacheGet]
    have hfresh : ¬ now2 > now1 + config.cacheTTL * 1000 := by omega
    rw [executePrompt_cache_hit config _ now2 provider2 prompt options _ hcache hen hget hfresh]
    exact ⟨_, rfl, rfl, rfl, rfl, rfl, rfl⟩

/-! ### C9 — cache pruning preserves unexpired entries -/

theorem cacheGet_cacheSet_self (m : Cache) (k : String) (v : CacheEntry) :
    cacheGet (cacheSet m k v) k = some v := by
  induction m with
  | nil => simp [cacheSet, cacheGet]
  | cons kv t ih =>
    by_cases h : kv.1 = k
    · simp [cacheSet, cacheGet, h]
    · simp [cacheSet, cacheGet, h, ih]

theorem cacheGet_cacheSet_other (m : Cache) (k k2 : String) (v : CacheEntry)
    (hne : k2 ≠ k) : cacheGet (cacheSet m k v) k2 = cacheGet m k2 := by
  have hne' : ¬ k = k2 := fun h => hne h.symm
  induction m with
  | nil => simp [cacheSet, cacheGet, hne']
  | cons kv t ih =>
    by_cases h : kv.1 = k
    · subst h
      simp [cacheSet, cacheGet, hne']
    · simp [cacheSet, cacheGet, h, ih]

theorem cacheGet_eq_none_iff (m : Cache) (k : String) :
    cacheGet m k = none ↔ k ∉ m.map Prod.fst := by
  induction m with
  | nil => simp [cacheGet]
  | cons kv t ih =>
    by_cases h : kv.1 = k
    · simp [cacheGet, h]
    · have h' : ¬ k = kv.1 := fun h2 => h h2.symm
      simp [cacheGet, h, h', ih]

theorem cleanupCache_keys_subset (now : Int) (m : Cache) :
    (cleanupCache now m).map Prod.fst ⊆ m.map Prod.fst := by
  induction m with
  | nil => simp [cleanupCache]
  | cons kv t ih =>
    by_cases h : now > kv.2.expiry
    · simp only [cleanupCache, if_pos h]
      exact fun a ha => List.mem_cons_of_mem _ (ih ha)
    · simp only [cleanupCache, if_neg h, List.map_cons]
      intro a ha
      rcases List.mem_cons.mp ha with rfl | ha
      · exact List.mem_cons_self _ _
      · exact List.mem_cons_of_mem _ (ih ha)

theorem cacheGet_cleanupCache (now : Int) (m : Cache)
    (hnd : (m.map Prod.fst).Nodup) (k : String) :
    cacheGet (cleanupCache now m) k =
      match cacheGet m k with
      | some e => if now > e.expiry then none else some e
      | none => none := by
  induction m with
  | nil => simp [cleanupCache, cacheGet]
  | cons kv t ih =>
    have hnd' : (t.map Prod.fst).Nodup := (List.nodup_cons.mp hnd).2
    have hhead : kv.1 ∉ t.map Prod.fst := (List.nodup_cons.mp hnd).1
    by_cases hk : kv.1 = k
    · subst hk
      by_cases hexp : now > kv.2.expiry
      · simp only [cleanupCache, if_pos hexp, cacheGet, if_pos rfl]
        have : cacheGet (cleanupCache now t) kv.1 = none := by
          rw [cacheGet_eq_none_iff]
          exact fun hmem => hhead (cleanupCache_keys_subset now t hmem)
        simp [this, hexp]
      · simp [cleanupCache, if_neg hexp, cacheGet, hexp]
    · by_cases hexp : now > kv.2.expiry
      · simp only [cleanupCache, if_pos hexp]
        rw [ih hnd']
        simp [cacheGet, hk]
      · simp only [cleanupCache, if_neg hexp]
        simp only [cacheGet, if_neg hk]
        exact ih hnd'

theorem mem_keys_cacheSet (m : Cache) (k a : String) (v : CacheEntry) :
    a ∈ (cacheSet m k v).map Prod.fst → a ∈ m.map Prod.fst ∨ a = k := by
  induction m with
  | nil =>
    intro h
    simp [cacheSet] at h
    exact Or.inr h
  | cons kv t ih =>
    intro hmem
    by_cases h2 : kv.1 = k
    · subst h2
      simp only [cacheSet, if_pos rfl, List.map_cons] at hmem
      rcases List.mem_cons.mp hmem with h3 | h3
      · exact Or.inr h3
      · exact Or.inl (List.mem_cons_of_mem _ h3)
    · simp only [cacheSet, if_neg h2, List.map_cons] at hmem
      rcases List.mem_cons.mp hmem with h3 | h3
      · exact Or.inl (by simp [h3])
      · rcases ih h3 with h4 | h4
        · exact Or.inl (List.mem_cons_of_mem _ h4)
        · exact Or.inr h4

theorem cacheSet_keys_nodup (m : Cache) (k : String) (v : CacheEntry)
    (hnd : (m.map Prod.fst).Nodup) : ((cacheSet m k v).map Prod.fst).Nodup := by
  induction m with
  | nil => simp [cacheSet]
  | cons kv t ih =>
    have hnd2 : (t.map Prod.fst).Nodup := (List.nodup_cons.mp hnd).2
    have hhead : kv.1 ∉ t.map Prod.fst := (List.nodup_cons.mp hnd).1
    by_cases hk : kv.1 = k
    · subst hk
      simp only [cacheSet, if_pos rfl, List.map_cons]
      exact List.nodup_cons.mpr ⟨hhead, hnd2⟩
    · simp only [cacheSet, if_neg hk, List.map_cons]
      refine List.nodup_cons.mpr ⟨?_, ih hnd2⟩
      intro hmem
      rcases mem_keys_cacheSet t k kv.1 v hmem with h | h
      · exact hhead h
      · exact hk h

theorem cacheGet_cacheDelete_other (m : Cache) (k k2 : String) (hne : k2 ≠ k) :
    cacheGet (cacheDelete m k) k2 = cacheGet m k2 := by
  have hne' : ¬ k = k2 := fun h => hne h.symm
  induction m with
  | nil => simp [cacheDelete, cacheGet]
  | cons kv t ih =>
    by_cases h : kv.1 = k
    · subst h
      simp [cacheDelete, cacheGet, hne']
    · simp [cacheDelete, cacheGet, h, ih]

theorem getCachedResult_eq_of_get_some (cache : Cache) (now : Int) (k : String)
    (entry : CacheEntry) (hk : cacheGet cache k = some entry) :
    getCachedResult cache now k =
      if now > entry.expiry then (none, cacheDelete cache k)
      else (some { entry.result with
        metadata := { entry.result.metadata with cached := true } }, cache) := by
  unfold getCachedResult
  rw [hk]

theorem getCachedResult_eq_of_get_none (cache : Cache) (now : Int) (k : String)
    (hk : cacheGet cache k = none) :
    getCachedResult cache now k = (none, cache) := by
  unfold getCachedResult
  rw [hk]

theorem getCachedResult_preserves_unexpired (cache : Cache) (now : Int) (k k2 : String)
    (e2 : CacheEntry) (hget : cacheGet cache k2 = some e2) (hfresh : ¬ now > e2.expiry) :
    cacheGet (getCachedResult cache now k).2 k2 = some e2 := by
  rcases hk : cacheGet cache k with _ | entry
  · rw [getCachedResult_eq_of_get_none cache now k hk]
    exact hget
  · rw [getCachedResult_eq_of_get_some cache now k entry hk]
    by_cases hexp : now > entry.expiry
    · by_cases heq : k2 = k
      · subst heq
        rw [hk] at hget
        cases hget
        exact absurd hexp hfresh
      · rw [if_pos hexp]
        show cacheGet (cacheDelete cache k) k2 = some e2
        rw [cacheGet_cacheDelete_other cache k k2 heq]
        exact hget
    · rw [if_neg hexp]
      exact hget

/-- A placeholder result for concrete cache scenarios. -/
def dummyResult : AIExecutionResult :=
  { content := "content", model := "model-x",
    metadata := { executionTime := 0, cached := false, retryCount := 0, timestamp := 0 } }

/-- **C9.** Storing preserves every unexpired entry (other keys keep their
entries, the stored key maps to the new entry); once the store exceeds
100 entries cleanup runs and removes exactly the entries whose expiry
has passed; a cache lookup deletes nothing but the expired entry it
finds; and storing keeps cache keys unique. -/
theorem cache_pruning_preserves_unexpired :
    (∀ (config : AIConfig) (cache : Cache) (now : Int) (key : String)
       (result : AIExecutionResult),
      (cache.map Prod.fst).Nodup →
      (∀ k2 e2, k2 ≠ key → cacheGet cache k2 = some e2 → ¬ now > e2.expiry →
        cacheGet (setCachedResult config cache now key result) k2 = some e2) ∧
      (¬ now > now + config.cacheTTL * 1000 →
        cacheGet (setCachedResult config cache now key result) key =
          some { result := result, expiry := now + config.cacheTTL * 1000 }) ∧
      ((cacheSet cache key
          { result := result, expiry := now + config.cacheTTL * 1000 }).length > 100 →
        setCachedResult config cache now key result =
          cleanupCache now (cacheSet cache key
            { result := result, expiry := now + config.cacheTTL * 1000 })) ∧
      (¬ (cacheSet cache key
          { result := result, expiry := now + config.cacheTTL * 1000 }).length > 100 →
        setCachedResult config cache now key result =
          cacheSet cache key { result := result, expiry := now + config.cacheTTL * 1000 })) ∧
    (∀ (cache : Cache) (now : Int), (cache.map Prod.fst).Nodup →
      ∀ k, cacheGet (cleanupCache now cache) k =
        match cacheGet cache k with
        | some e => if now > e.expiry then none else some e
        | none => none) ∧
    (∀ (cache : Cache) (now : Int) (k k2 : String) (e2 : CacheEntry),
      cacheGet cache k2 = some e2 → ¬ now > e2.expiry →
      cacheGet (getCachedResult cache now k).2 k2 = some e2) ∧
    (∀ (cache : Cache) (key : String) (v : CacheEntry), (cache.map Prod.fst).Nodup →
      ((cacheSet cache key v).map Prod.fst).Nodup) ∧
    cleanupCache 10 [("a", { result := dummyResult, expiry := 5 }),
      ("b", { result := dummyResult, expiry := 20 })] =
      [("b", { result := dummyResult, expiry := 20 })] := by
  refine ⟨?_, fun cache now hnd k => cacheGet_cleanupCache now cache hnd k,
    getCachedResult_preserves_unexpired, cacheSet_keys_nodup, by decide⟩
  intro config cache now key result hnd
  set entry : CacheEntry := { result := result, expiry := now + config.cacheTTL * 1000 }
    with hentry
  have hset_nodup := cacheSet_keys_nodup cache key entry hnd
  refine ⟨?_, ?_, ?_, ?_⟩
  · intro k2 e2 hne hget hfresh
    have hget2 : cacheGet (cacheSet cache key entry) k2 = some e2 := by
      rw [cacheGet_cacheSet_other cache key k2 entry hne]
      exact hget
    unfold setCachedResult
    by_cases hlen : (cacheSet cache key entry).length > 100
    · rw [if_pos hlen, cacheGet_cleanupCache now _ hset_nodup]
      simp only [hget2]
      rw [if_neg hfresh]
    · rw [if_neg hlen]
      exact hget2
  · intro hfresh
    unfold setCachedResult
    by_cases hlen : (cacheSet cache key entry).length > 100
    · rw [if_pos hlen, cacheGet_cleanupCache now _ hset_nodup]
      simp only [cacheGet_cacheSet_self]
      rw [if_neg (show ¬ now > entry.expiry from hfresh)]
    · rw [if_neg hlen]
      exact cacheGet_cacheSet_self cache key entry
  · intro hlen
    unfold setCachedResult
    rw [if_pos hlen]
  · intro hlen
    unfold setCachedResult
    rw [if_neg hlen]

/-! ### C6 — JSON extraction across wrappings -/

theorem getLast?_mem_of_eq (l : List Char) (a : Char) (h : l.getLast? = some a) : a ∈ l := by
  obtain ⟨hne, heq⟩ := List.mem_getLast?_eq_getLast (show a ∈ l.getLast? from h)
  rw [heq]
  exact List.getLast_mem hne

theorem dropWhile_append_of_all (p : Char → Bool) (w l : List Char)
    (hw : ∀ c ∈ w, p c = true) : (w ++ l).dropWhile p = l.dropWhile p := by
  induction w with
  | nil => rfl
  | cons c t ih =>
    have hc : p c = true := hw c (List.mem_cons_self _ _)
    simp only [List.cons_append, List.dropWhile_cons, hc, if_true]
    exact ih (fun c2 h2 => hw c2 (List.mem_cons_of_mem _ h2))

theorem dropWhile_all_eq_nil (p : Char → Bool) (w : List Char)
    (hw : ∀ c ∈ w, p c = true) : w.dropWhile p = [] := by
  simpa using dropWhile_append_of_all p w [] hw

theorem dropWhile_head_not (p : Char → Bool) (l : List Char) (c : Char)
    (h : (l.dropWhile p).head? = some c) : p c = false := by
  induction l with
  | nil => cases h
  | cons a t ih =>
    by_cases ha : p a = true
    · rw [List.dropWhile_cons, if_pos ha] at h
      exact ih h
    · rw [List.dropWhile_cons, if_neg ha] at h
      cases h
      exact Bool.not_eq_true _ |>.mp ha

theorem jsTrimL_append_eq_dropWhile (l : List Char) :
    jsTrimL l ++ ((l.dropWhile jsWhite).reverse.takeWhile jsWhite).reverse =
      l.dropWhile jsWhite := by
  conv_rhs => rw [← List.reverse_reverse (l.dropWhile jsWhite),
    ← List.takeWhile_append_dropWhile (p := jsWhite) (l := (l.dropWhile jsWhite).reverse),
    List.reverse_append]
  rfl

theorem exists_trim_decomp (l : List Char) :
    ∃ w1 w2, l = w1 ++ jsTrimL l ++ w2 ∧ (∀ c ∈ w1, jsWhite c = true) ∧
      (∀ c ∈ w2, jsWhite c = true) := by
  refine ⟨l.takeWhile jsWhite,
    ((l.dropWhile jsWhite).reverse.takeWhile jsWhite).reverse, ?_, ?_, ?_⟩
  · rw [List.append_assoc, jsTrimL_append_eq_dropWhile,
      List.takeWhile_append_dropWhile]
  · intro c hc
    exact List.mem_takeWhile_imp hc
  · intro c hc
    exact List.mem_takeWhile_imp (List.mem_reverse.mp hc)

theorem jsTrimL_head_not_white (l : List Char) (c : Char)
    (h : (jsTrimL l).head? = some c) : jsWhite c = false := by
  rcases hcons : jsTrimL l with _ | ⟨c0, rest⟩
  · rw [hcons] at h; cases h
  · rw [hcons] at h
    cases h
    have hd := jsTrimL_append_eq_dropWhile l
    rw [hcons] at hd
    apply dropWhile_head_not jsWhite l c
    rw [← hd]
    rfl

theorem jsTrimL_last_not_white (l : List Char) (c : Char)
    (h : (jsTrimL l).getLast? = some c) : jsWhite c = false := by
  unfold jsTrimL at h
  rw [List.getLast?_reverse] at h
  exact dropWhile_head_not jsWhite _ c h

/-- The trim of an all-whitespace-padded clean list is the clean core. -/
theorem jsTrimL_pad (w1 t w2 : List Char)
    (hw1 : ∀ c ∈ w1, jsWhite c = true) (hw2 : ∀ c ∈ w2, jsWhite c = true)
    (hh : ∀ c, t.head? = some c → jsWhite c = false)
    (hl : ∀ c, t.getLast? = some c → jsWhite c = false) :
    jsTrimL (w1 ++ t ++ w2) = t := by
  rcases t with _ | ⟨h0, t1⟩
  · have h1 : (w1 ++ ([] : List Char) ++ w2).dropWhile jsWhite = [] := by
      rw [List.append_nil, dropWhile_append_of_all jsWhite w1 w2 hw1]
      exact dropWhile_all_eq_nil jsWhite w2 hw2
    unfold jsTrimL
    rw [h1]
    rfl
  · have hnw : jsWhite h0 = false := hh h0 rfl
    have hd1 : (w1 ++ (h0 :: t1) ++ w2).dropWhile jsWhite = (h0 :: t1) ++ w2 := by
      rw [List.append_assoc, dropWhile_append_of_all jsWhite w1 _ hw1,
        List.cons_append, List.dropWhile_cons, hnw]
      simp
    unfold jsTrimL
    rw [hd1, List.reverse_append,
      dropWhile_append_of_all jsWhite w2.reverse _
        (fun c hc => hw2 c (List.mem_reverse.mp hc))]
    rcases hrev : (h0 :: t1).reverse with _ | ⟨c0, r⟩
    · exact absurd (List.reverse_eq_nil_iff.mp hrev) (by simp)
    · have hc0 : jsWhite c0 = false := by
        apply hl
        rw [← List.head?_reverse, hrev]
        rfl
      rw [List.dropWhile_cons, hc0]
      simp only [Bool.false_eq_true, if_false]
      rw [← hrev, List.reverse_reverse]

theorem stripPrefixL_append (pre rest : List Char) :
    stripPrefixL pre (pre ++ rest) = some rest := by
  induction pre with
  | nil => rfl
  | cons p ps ih => simp [stripPrefixL, ih]

theorem stripPrefixL_cons_ne (p : Char) (ps : List Char) (c : Char) (cs : List Char)
    (h : p ≠ c) : stripPrefixL (p :: ps) (c :: cs) = none := by
  simp [stripPrefixL, h]

theorem takeUpToLast_of_getLast (ch : Char) (l : List Char)
    (h : l.getLast? = some ch) : takeUpToLast ch l = l := by
  rcases hrev : l.reverse with _ | ⟨c0, r⟩
  · rw [List.reverse_eq_nil_iff.mp hrev] at h
    cases h
  · have hc0 : c0 = ch := by
      have h2 := List.head?_reverse l
      rw [hrev, h] at h2
      exact (Option.some.injEq _ _).mp h2
    subst hc0
    unfold takeUpToLast
    rw [hrev, List.dropWhile_cons]
    have hdec : (decide ¬(c0 = c0)) = false := by simp
    rw [hdec]
    simp only [Bool.false_eq_true, if_false]
    rw [← hrev, List.reverse_reverse]

/-- The trimmed content is an object- or array-shaped text. -/
def BracketShaped (t : String) : Prop :=
  (t.data.head? = some braceOpen ∧ t.data.getLast? = some braceClose) ∨
  (t.data.head? = some '[' ∧ t.data.getLast? = some ']')

theorem extract_stage3_bracketed (t : List Char) (hB : BracketShaped (String.mk t))
    (htrim : jsTrimL t = t) :
    jsonSpanStage (String.mk t) = String.mk t := by
  rcases t with _ | ⟨h0, t1⟩
  · rcases hB with ⟨h1, _⟩ | ⟨h1, _⟩ <;> cases h1
  · have hspan : tryJsonSpanL (h0 :: t1) = some (h0 :: t1) := by
      rcases hB with ⟨h1, h2⟩ | ⟨h1, h2⟩
      · have hh0 : h0 = braceOpen := by
          cases h1
          rfl
        subst hh0
        have ht1ne : t1 ≠ [] := by
          intro hnil
          subst hnil
          cases h2
        have hlast : t1.getLast? = some braceClose := by
          rcases t1 with _ | ⟨b, t2⟩
          · exact absurd rfl ht1ne
          · rw [← List.getLast?_cons_cons]
            exact h2
        have hmem : braceClose ∈ t1 := getLast?_mem_of_eq t1 braceClose hlast
        unfold tryJsonSpanL
        rw [if_pos ⟨rfl, hmem⟩, takeUpToLast_of_getLast braceClose t1 hlast]
      · have hh0 : h0 = '[' := by
          cases h1
          rfl
        subst hh0
        have ht1ne : t1 ≠ [] := by
          intro hnil
          subst hnil
          cases h2
        have hlast : t1.getLast? = some ']' := by
          rcases t1 with _ | ⟨b, t2⟩
          · exact absurd rfl ht1ne
          · rw [← List.getLast?_cons_cons]
            exact h2
        have hmem : (']' : Char) ∈ t1 := getLast?_mem_of_eq t1 ']' hlast
        unfold tryJsonSpanL
        rw [if_neg (by rintro ⟨h, _⟩; exact absurd h (by decide)),
          if_pos ⟨rfl, hmem⟩, takeUpToLast_of_getLast ']' t1 hlast]
    unfold jsonSpanStage
    rw [show (String.mk (h0 :: t1)).data = h0 :: t1 from rfl, hspan]
    simp only [List.isEmpty_cons, Bool.false_eq_true, if_false]
    show jsTrim (String.mk (h0 :: t1)) = String.mk (h0 :: t1)
    unfold jsTrim
    rw [show (String.mk (h0 :: t1)).data = h0 :: t1 from rfl, htrim]

theorem extractJsonFromResponse_none (s : String)
    (h : tryCodeBlockL (jsTrim s).data = none) :
    extractJsonFromResponse s = inlineStage (jsTrim s) := by
  show (match tryCodeBlockL (jsTrim s).data with
    | some cap => if cap.isEmpty then inlineStage (jsTrim s) else jsTrim (String.mk cap)
    | none => inlineStage (jsTrim s)) = inlineStage (jsTrim s)
  rw [h]

theorem extractJsonFromResponse_some (s : String) (cap : List Char)
    (h : tryCodeBlockL (jsTrim s).data = some cap) (hne : cap ≠ []) :
    extractJsonFromResponse s = jsTrim (String.mk cap) := by
  show (match tryCodeBlockL (jsTrim s).data with
    | some cap => if cap.isEmpty then inlineStage (jsTrim s) else jsTrim (String.mk cap)
    | none => inlineStage (jsTrim s)) = jsTrim (String.mk cap)
  rw [h]
  show (if cap.isEmpty then inlineStage (jsTrim s) else jsTrim (String.mk cap)) = _
  rw [if_neg]
  simp [List.isEmpty_iff, hne]

theorem inlineStage_none (c : String) (h : tryInlineL c.data = none) :
    inlineStage c = jsonSpanStage c := by
  rw [inlineStage, h]

theorem inlineStage_some (c : String) (cap : List Char)
    (h : tryInlineL c.data = some cap) (hne : cap ≠ []) :
    inlineStage c = jsTrim (String.mk cap) := by
  rw [inlineStage, h]
  show (if cap.isEmpty then jsonSpanStage c else jsTrim (String.mk cap)) = _
  rw [if_neg]
  simp [List.isEmpty_iff, hne]

theorem bracketShaped_head_ne_backtick (t : List Char) (hB : BracketShaped (String.mk t))
    (c : Char) (hc : t.head? = some c) : c ≠ '`' := by
  rcases hB with ⟨h1, _⟩ | ⟨h1, _⟩ <;>
  · rw [show (String.mk t).data = t from rfl, hc] at h1
    cases h1
    decide

theorem bracketShaped_head_not_white (t : List Char) (hB : BracketShaped (String.mk t))
    (c : Char) (hc : t.head? = some c) : jsWhite c = false := by
  rcases hB with ⟨h1, _⟩ | ⟨h1, _⟩ <;>
  · rw [show (String.mk t).data = t from rfl, hc] at h1
    cases h1
    decide

theorem bracketShaped_last_not_white (t : List Char) (hB : BracketShaped (String.mk t))
    (c : Char) (hc : t.getLast? = some c) : jsWhite c = false := by
  rcases hB with ⟨_, h2⟩ | ⟨_, h2⟩ <;>
  · rw [show (String.mk t).data = t from rfl, hc] at h2
    cases h2
    decide

/-- Case A of C6: a bracket-shaped trimmed content passes untouched
through stages 1 and 2 and is returned whole by stage 3. -/
theorem extract_unwrapped (s : String) (hB : BracketShaped (jsTrim s)) :
    extractJsonFromResponse s = jsTrim s := by
  rcases ht : (jsTrim s).data with _ | ⟨h0, t1⟩
  · rcases hB with ⟨h1, _⟩ | ⟨h1, _⟩ <;> (rw [ht] at h1; cases h1)
  · have hts : String.mk (h0 :: t1) = jsTrim s := by
      rw [← ht]
    rw [← hts] at hB
    have hne : h0 ≠ '`' :=
      bracketShaped_head_ne_backtick (h0 :: t1) hB h0 rfl
    have hcb : tryCodeBlockL (h0 :: t1) = none := by
      unfold tryCodeBlockL
      rw [show ("```".data : List Char) = '`' :: '`' :: '`' :: [] from rfl,
        stripPrefixL_cons_ne '`' _ h0 t1 (fun h => hne h.symm)]
    have hin : tryInlineL (h0 :: t1) = none := by
      unfold tryInlineL
      rcases t1 with _ | ⟨d, ds⟩
      · rfl
      · show (if h0 = '`' ∧ (d :: ds).getLast? = some '`'
            then some ((d :: ds).dropLast) else none) = none
        rw [if_neg]
        rintro ⟨h, _⟩
        exact hne h
    have hstage3 := extract_stage3_bracketed (h0 :: t1) hB
      (by
        have h2 := jsTrimL_pad [] (h0 :: t1) []
          (by intro c hc; cases hc) (by intro c hc; cases hc)
          (fun c hc => bracketShaped_head_not_white _ hB c hc)
          (fun c hc => bracketShaped_last_not_white _ hB c hc)
        simpa using h2)
    rw [extractJsonFromResponse_none s (by rw [ht]; exact hcb),
      inlineStage_none (jsTrim s) (by rw [ht]; exact hin), ← hts]
    exact hstage3

theorem sdata_head_ne_backtick (s : String) (hB : BracketShaped (jsTrim s)) :
    ∃ c0 r, s.data = c0 :: r ∧ c0 ≠ '`' := by
  obtain ⟨w1, w2, hdec, hw1, hw2⟩ := exists_trim_decomp s.data
  have hhead : ∃ h0, (jsTrimL s.data).head? = some h0 ∧ h0 ≠ '`' := by
    rcases hB with ⟨h1, _⟩ | ⟨h1, _⟩
    · exact ⟨braceOpen, h1, by decide⟩
    · exact ⟨'[', h1, by decide⟩
  obtain ⟨h0, hh0, hh0ne⟩ := hhead
  rcases w1 with _ | ⟨c, w1t⟩
  · rcases hT : jsTrimL s.data with _ | ⟨x, xs⟩
    · rw [hT] at hh0
      cases hh0
    · rw [hT] at hh0
      have hx : x = h0 := Option.some.inj hh0
      refine ⟨x, xs ++ w2, ?_, ?_⟩
      · rw [hdec, hT]
        simp
      · rw [hx]
        exact hh0ne
  · refine ⟨c, w1t ++ jsTrimL s.data ++ w2, ?_, ?_⟩
    · conv_lhs => rw [hdec]
      simp
    · intro hc
      have hcw := hw1 c (List.mem_cons_self _ _)
      rw [hc] at hcw
      simp [jsWhite] at hcw

theorem tryCodeBlockL_backtick_cons_ne (c0 : Char) (r : List Char) (h : c0 ≠ '`') :
    tryCodeBlockL ('`' :: c0 :: r) = none := by
  unfold tryCodeBlockL
  rw [show stripPrefixL "```".data ('`' :: c0 :: r) =
      stripPrefixL ('`' :: '`' :: []) (c0 :: r) from by
    show (if '`' = '`' then stripPrefixL ('`' :: '`' :: []) (c0 :: r) else none) = _
    rw [if_pos rfl],
    stripPrefixL_cons_ne '`' _ c0 r (fun hh => h hh.symm)]

/-- Case B of C6: a single-backtick-wrapped response falls past the fenced
stage and the inline stage captures exactly the original content, trimmed. -/
theorem extract_backtick_wrapped (s : String) (hB : BracketShaped (jsTrim s)) :
    extractJsonFromResponse ("`" ++ s ++ "`") = jsTrim s := by
  obtain ⟨c0, r, hsd, hc0⟩ := sdata_head_ne_backtick s hB
  have hWd : ("`" ++ s ++ "`").data = '`' :: (s.data ++ ['`']) := by
    rw [String.data_append, String.data_append,
      show ("`".data : List Char) = ['`'] from rfl]
    simp
  have hlast : ('`' :: (s.data ++ ['`'])).getLast? = some '`' := by
    show (('`' :: s.data) ++ ['`']).getLast? = some '`'
    exact List.getLast?_concat _
  have htrimW : jsTrimL (("`" ++ s ++ "`").data) = ("`" ++ s ++ "`").data := by
    rw [hWd]
    have hpad := jsTrimL_pad [] ('`' :: (s.data ++ ['`'])) []
      (by intro c hc; cases hc) (by intro c hc; cases hc)
      (by intro c hc
          have hc2 : c = '`' := (Option.some.inj hc).symm
          rw [hc2]
          decide)
      (by intro c hc
          rw [hlast] at hc
          have hc2 : c = '`' := (Option.some.inj hc).symm
          rw [hc2]
          decide)
    simpa using hpad
  have hjt : (jsTrim ("`" ++ s ++ "`")).data = '`' :: (s.data ++ ['`']) := by
    show jsTrimL (("`" ++ s ++ "`").data) = _
    rw [htrimW, hWd]
  have hcb : tryCodeBlockL ('`' :: (s.data ++ ['`'])) = none := by
    rw [hsd]
    show tryCodeBlockL ('`' :: c0 :: (r ++ ['`'])) = none
    exact tryCodeBlockL_backtick_cons_ne c0 _ hc0
  have hin : tryInlineL ('`' :: (s.data ++ ['`'])) = some s.data := by
    rw [hsd]
    show (if '`' = '`' ∧ (c0 :: (r ++ ['`'])).getLast? = some '`'
        then some ((c0 :: (r ++ ['`'])).dropLast) else none) = some (c0 :: r)
    rw [if_pos]
    · rw [show c0 :: (r ++ ['`']) = (c0 :: r) ++ ['`'] from rfl, List.dropLast_concat]
    · refine ⟨rfl, ?_⟩
      rw [show c0 :: (r ++ ['`']) = (c0 :: r) ++ ['`'] from rfl]
      exact List.getLast?_concat _
  rw [extractJsonFromResponse_none _ (by rw [hjt]; exact hcb),
    inlineStage_some _ s.data (by rw [hjt]; exact hin)
      (by rw [hsd]; exact List.cons_ne_nil c0 r)]

theorem tryCodeBlockL_json_newline (rest : List Char) :
    tryCodeBlockL ("```".data ++ ("json".data ++ ('\n' :: rest)))
      = (if (rest.dropWhile jsWhite).length ≥ 4 ∧
            (rest.dropWhile jsWhite).drop ((rest.dropWhile jsWhite).length - 4)
              = '\n' :: "```".data then
           some ((rest.dropWhile jsWhite).take ((rest.dropWhile jsWhite).length - 4))
         else if (rest.dropWhile jsWhite).length ≥ 3 ∧
            (rest.dropWhile jsWhite).drop ((rest.dropWhile jsWhite).length - 3)
              = "```".data then
           some ((rest.dropWhile jsWhite).take ((rest.dropWhile jsWhite).length - 3))
         else none) := rfl

/-- Case C of C6: a ```json-fenced response is captured by the fenced
stage, which strips the fence and language tag and trims the capture. -/
theorem extract_fenced_wrapped (s : String) (hB : BracketShaped (jsTrim s)) :
    extractJsonFromResponse ("```json\n" ++ s ++ "\n```") = jsTrim s := by
  obtain ⟨w1, w2, hdec, hw1, hw2⟩ := exists_trim_decomp s.data
  have hW2 : ("```json\n" ++ s ++ "\n```").data
      = ("```json\n".data ++ s.data) ++ "\n```".data := by
    rw [String.data_append, String.data_append]
  have hne4 : ("\n```".data : List Char) ≠ [] := by decide
  have hlast : ((("```json\n".data ++ s.data) ++ "\n```".data)).getLast? = some '`' := by
    rw [List.getLast?_append_of_ne_nil _ hne4]
    decide
  have htrimW : jsTrimL (("```json\n" ++ s ++ "\n```").data)
      = ("```json\n" ++ s ++ "\n```").data := by
    rw [hW2]
    have hpad := jsTrimL_pad [] (("```json\n".data ++ s.data) ++ "\n```".data) []
      (by intro c hc; cases hc) (by intro c hc; cases hc)
      (by intro c hc
          have hc3 : some '`' = some c := hc
          have hc2 : c = '`' := (Option.some.inj hc3).symm
          rw [hc2]
          decide)
      (by intro c hc
          rw [hlast] at hc
          have hc2 : c = '`' := (Option.some.inj hc).symm
          rw [hc2]
          decide)
    simpa using hpad
  have hjt : (jsTrim ("```json\n" ++ s ++ "\n```")).data
      = ("```json\n".data ++ s.data) ++ "\n```".data := by
    show jsTrimL (("```json\n" ++ s ++ "\n```").data) = _
    rw [htrimW, hW2]
  rcases hT : jsTrimL s.data with _ | ⟨h0, t1⟩
  · exfalso
    have hBh : ∃ x, (jsTrimL s.data).head? = some x := by
      rcases hB with ⟨h1, _⟩ | ⟨h1, _⟩
      · exact ⟨_, h1⟩
      · exact ⟨_, h1⟩
    obtain ⟨x, hh⟩ := hBh
    rw [hT] at hh
    cases hh
  · rw [hT] at hdec
    have hh0w : jsWhite h0 = false :=
      jsTrimL_head_not_white s.data h0 (by rw [hT]; rfl)
    have hlt : ∀ c, (h0 :: t1).getLast? = some c → jsWhite c = false :=
      fun c hc => jsTrimL_last_not_white s.data c (by rw [hT]; exact hc)
    have hr2 : ((s.data ++ "\n```".data).dropWhile jsWhite)
        = ((h0 :: t1) ++ w2) ++ "\n```".data := by
      rw [hdec]
      rw [show ((w1 ++ (h0 :: t1) ++ w2) ++ "\n```".data)
          = w1 ++ ((h0 :: t1) ++ (w2 ++ "\n```".data)) from by simp [List.append_assoc]]
      rw [dropWhile_append_of_all jsWhite w1 _ hw1]
      rw [List.cons_append, List.dropWhile_cons, if_neg (by simp [hh0w])]
      simp [List.append_assoc]
    have hcb : tryCodeBlockL (("```json\n".data ++ s.data) ++ "\n```".data)
        = some ((h0 :: t1) ++ w2) := by
      have hstep := tryCodeBlockL_json_newline (s.data ++ "\n```".data)
      rw [hr2] at hstep
      have hlen : (((h0 :: t1) ++ w2) ++ "\n```".data).length
          = ((h0 :: t1) ++ w2).length + 4 := by
        simp
        omega
      rw [hlen] at hstep
      rw [show ((h0 :: t1) ++ w2).length + 4 - 4 = ((h0 :: t1) ++ w2).length from by omega]
        at hstep
      rw [List.drop_left, List.take_left] at hstep
      rw [if_pos (by refine ⟨by omega, by decide⟩)] at hstep
      show tryCodeBlockL ("```".data ++ ("json".data ++ ('\n' :: (s.data ++ "\n```".data))))
        = some ((h0 :: t1) ++ w2)
      exact hstep
    have hcap : tryCodeBlockL (jsTrim ("```json\n" ++ s ++ "\n```")).data
        = some ((h0 :: t1) ++ w2) := by
      rw [hjt]
      exact hcb
    rw [extractJsonFromResponse_some _ _ hcap (by simp)]
    show String.mk (jsTrimL ((h0 :: t1) ++ w2)) = jsTrim s
    have htc : jsTrimL ((h0 :: t1) ++ w2) = h0 :: t1 := by
      have hpad := jsTrimL_pad [] (h0 :: t1) w2 (by intro c hc; cases hc) hw2
        (by intro c hc
            have hc2 : c = h0 := (Option.some.inj hc).symm
            rw [hc2]
            exact hh0w)
        hlt
      simpa using hpad
    rw [htc]
    show String.mk (h0 :: t1) = jsTrim s
    rw [← hT]
    rfl

/-- C6: for every response whose trimmed content is an object- or
array-shaped JSON text (first char `\x7b` or `[`, last char `\x7d` or `]`),
`extractJsonFromResponse` returns that trimmed text identically whether the
raw response is unwrapped, wrapped in single backticks, or fenced in a
```json code block; concretely, the object text `\x7b"a": 1\x7d` is
recovered from all three wrappings. -/
theorem extractJsonFromResponse_wrapping_equivalent :
    (∀ s : String, BracketShaped (jsTrim s) →
      extractJsonFromResponse s = jsTrim s ∧
      extractJsonFromResponse ("`" ++ s ++ "`") = jsTrim s ∧
      extractJsonFromResponse ("```json\n" ++ s ++ "\n```") = jsTrim s) ∧
    extractJsonFromResponse "\x7b\"a\": 1\x7d" = "\x7b\"a\": 1\x7d" ∧
    extractJsonFromResponse "`\x7b\"a\": 1\x7d`" = "\x7b\"a\": 1\x7d" ∧
    extractJsonFromResponse "```json\n\x7b\"a\": 1\x7d\n```" = "\x7b\"a\": 1\x7d" := by
  refine ⟨fun s hB => ⟨extract_unwrapped s hB, extract_backtick_wrapped s hB,
    extract_fenced_wrapped s hB⟩, ?_, ?_, ?_⟩ <;> decide

/-- C6 divergence: for the scalar JSON text `"\x7b\x7d"` (a string literal
whose characters happen to contain a brace pair) the unwrapped response is
cut down to the inner braces by the span stage, while the backtick-wrapped
response yields the full literal: the wrappings do not agree on every
parseable JSON text, only on object/array-shaped ones. -/
theorem extractJsonFromResponse_scalar_divergence :
    extractJsonFromResponse "\"\x7b\x7d\"" = "\x7b\x7d" ∧
    extractJsonFromResponse ("`" ++ "\"\x7b\x7d\"" ++ "`") = "\"\x7b\x7d\"" ∧
    jsTrim "\"\x7b\x7d\"" = "\"\x7b\x7d\"" ∧
    ("\x7b\x7d" : String) ≠ "\"\x7b\x7d\"" := by
  decide
